import Mathlib

/-!
Verification of the protodec-rs schema-free protobuf decoder.

This file shallowly embeds the core of the repository in Lean 4:

* `src/proto/utils.rs`   — varint serialisation, tag packing, ZigZag transforms;
* `src/proto/error.rs`   — the error type;
* `src/proto/field.rs`   — the per-type field decoders and the decoder factory;
* `src/parser/parser.rs` — the direct (`SimpleParser`), recursive (`FullParser`)
  and scanning (`PartialParser`) decoders.

Bytes are modelled as `Nat` (every value produced by the serialisers is `< 256`;
the deserialisers only inspect a byte through `&&& 0x7F` and `>>> 7`).  Machine
integers are `Nat`/`Int` with explicit `% 2 ^ 64` (resp. `% 2 ^ 32`) at the
points where the Rust code wraps.  Rust `u64` shifts whose amount can reach the
bit width are modelled with the release-mode semantics (shift amount taken
`% 64`); no claim below depends on this choice, since every claim either keeps
the shift amount below 64 or ignores the accumulated value.  Fallible code
returns an error value; a Rust panic (out-of-bounds index or slice) is an
explicit `panic` result constructor.  The unbounded `while`/recursion of the
parsers is modelled with an explicit fuel parameter (`outOfFuel` reports that
the fuel ran out; the Rust code has no such bound and simply never returns in
the corresponding executions).
-/

namespace Protodec

/-! ## `src/proto/error.rs` -/

/-- `ErrorType` from `src/proto/error.rs`. -/
inductive ErrorType : Type where
  | GeneralError
  | ParserError
  | GeneratorError
  | IncorrectType
  | IncorrectData
deriving Repr, DecidableEq

/-- `Error` from `src/proto/error.rs`: a message plus an `ErrorType`.
The formatted parts of the Rust messages are abbreviated to a static prefix;
no theorem below inspects the message text. -/
structure PError : Type where
  details : String
  type_ : ErrorType
deriving Repr, DecidableEq

/-! ## `src/proto/utils.rs` -/

/-- The byte list produced by the `while x != 0` loop of `serialize_varint_into`:
each iteration pushes `((x & 0x7F) | (((x >> 7) != 0) << 7))` and divides `x` by
`2^7`. -/
def varint_groups (x : Nat) : List Nat :=
  if h : x = 0 then []
  else
    ((x &&& 0x7F) ||| ((if x >>> 7 ≠ 0 then 1 else 0) <<< 0x7)) ::
      varint_groups (x >>> 7)
decreasing_by
  simp only [Nat.shiftRight_eq_div_pow]
  exact Nat.div_lt_self (Nat.pos_of_ne_zero h) (by norm_num)

/-- `serialize_varint` from `src/proto/utils.rs`: `0` is encoded as the single
byte `0`, any other value by the loop of `serialize_varint_into`. -/
def serialize_varint (var : Nat) : List Nat :=
  if var = 0 then [0] else varint_groups var

/-- The `for (i, x) in gen.iter().enumerate()` loop of `deserialize_varint`.
Each byte contributes `(x & 0x7F) << (i * 7)` (u64 wrap, release-mode shift);
on the first byte with clear continuation bit the loop breaks recording
`readed = i + 1`.  If the list is exhausted without a terminator, `readed`
keeps its initial value `0`. -/
def deserialize_varint_go : List Nat → Nat → Nat → Nat × Nat
  | [], _, result => (result, 0)
  | x :: rest, i, result =>
    let result := result ||| (((x &&& 0x7F) <<< ((i * 7) % 64)) % 2 ^ 64)
    if x >>> 7 = 0 then (result, i + 1) else deserialize_varint_go rest (i + 1) result

/-- The `(result, readed)` pair computed by `deserialize_varint`. -/
def deserialize_varint_raw (gen : List Nat) : Nat × Nat :=
  deserialize_varint_go gen 0 0

/-- `deserialize_varint` from `src/proto/utils.rs`.  The Rust function has a
`Result` signature but unconditionally returns `Ok((result, readed))`. -/
def deserialize_varint (gen : List Nat) : Except PError (Nat × Nat) :=
  .ok (deserialize_varint_raw gen)

/-- `generate_key` from `src/proto/utils.rs`:
`((field_number & 0x1FFFFFFFFFFFFFFF) << 3) | wire_type`. -/
def generate_key (field_number : Nat) (wire_type : Nat) : Nat :=
  ((field_number &&& 0x1FFFFFFFFFFFFFFF) <<< 3) ||| wire_type

/-- `parse_key` from `src/proto/utils.rs`: `(key >> 3, key & 0x7)`. -/
def parse_key (key : Nat) : Nat × Nat :=
  (key >>> 3, key &&& 0x7)

/-- Rust `var as u32` on an `i32` value: the two's-complement bit pattern. -/
def i32_as_u32 (var : Int) : Nat := (var % (2 ^ 32 : Int)).toNat

/-- Rust `var as u64` on an `i64` value: the two's-complement bit pattern. -/
def i64_as_u64 (var : Int) : Nat := (var % (2 ^ 64 : Int)).toNat

/-- Rust `x as i32` on a `u64` value: truncate to 32 bits, reinterpret as
two's complement. -/
def u64_as_i32 (x : Nat) : Int :=
  let u : Nat := x % 2 ^ 32
  if u < 2 ^ 31 then (u : Int) else (u : Int) - 2 ^ 32

/-- Rust `x as i64` on a `u64` value: reinterpret as two's complement. -/
def u64_as_i64 (x : Nat) : Int :=
  let u : Nat := x % 2 ^ 64
  if u < 2 ^ 63 then (u : Int) else (u : Int) - 2 ^ 64

/-- `encode_zigzag_s32` from `src/proto/utils.rs`.  The Rust code matches on
`(var as u32) >> 31`; the `<< 1` is a u32 shift and wraps `% 2 ^ 32`. -/
def encode_zigzag_s32 (var : Int) : Nat :=
  let u := i32_as_u32 var
  if u >>> 31 = 0 then ((u <<< 1) % 2 ^ 32) ^^^ (u >>> 31)
  else (((u ^^^ 0x7FFFFFFF) <<< 1) % 2 ^ 32) ^^^ (u >>> 31)

/-- `decode_zigzag_s32` from `src/proto/utils.rs`.  `var` is a `u64`; the
`<< 31` is a u64 shift and wraps `% 2 ^ 64`; the result is cast `as i32`. -/
def decode_zigzag_s32 (var : Nat) : Int :=
  if var &&& 0x1 = 0 then u64_as_i32 (((var <<< 31) % 2 ^ 64) ^^^ (var >>> 1))
  else u64_as_i32 ((((var <<< 31) % 2 ^ 64) ^^^ (var >>> 1)) ^^^ 0x7FFFFFFF)

/-- `encode_zigzag_s64` from `src/proto/utils.rs`. -/
def encode_zigzag_s64 (var : Int) : Nat :=
  let u := i64_as_u64 var
  if u >>> 63 = 0 then ((u <<< 1) % 2 ^ 64) ^^^ (u >>> 63)
  else (((u ^^^ 0x7FFFFFFFFFFFFFFF) <<< 1) % 2 ^ 64) ^^^ (u >>> 63)

/-- `decode_zigzag_s64` from `src/proto/utils.rs`. -/
def decode_zigzag_s64 (var : Nat) : Int :=
  if var &&& 0x1 = 0 then u64_as_i64 (((var <<< 63) % 2 ^ 64) ^^^ (var >>> 1))
  else u64_as_i64 ((((var <<< 63) % 2 ^ 64) ^^^ (var >>> 1)) ^^^ 0x7FFFFFFFFFFFFFFF)

/-! ## `src/proto/field.rs`: data model -/

/-- `FieldType` from `src/proto/field.rs` (all 20 variants). -/
inductive FieldType : Type where
  | Int32 | Int64 | UInt32 | UInt64 | SInt32 | SInt64 | Bool
  | Fixed64 | SFixed64 | Double | String | Bytes
  | Fixed32 | SFixed32 | Float
  | Enum | Embedded | Repeated | StartGroup | EndGroup
deriving Repr, DecidableEq

/-- `FieldLabel` from `src/proto/field.rs`. -/
inductive FieldLabel : Type where
  | Optional | Repeated | Required
deriving Repr, DecidableEq

mutual
/-- One decoded field.  In the Rust code every concrete field struct is a
`Field<T>` wrapper (name, rule, type, tag number, data) boxed behind the
`FieldTrait` object; here the per-`T` payload is the `FieldData` sum. -/
inductive FieldRec : Type where
  | mk (name : String) (rule : FieldLabel) (type_ : FieldType) (number : Nat)
      (data : FieldData)

/-- The `data` member of the various `Field<T>` instantiations.  `f32`/`f64`
payloads are kept as their little-endian bit pattern (`dBits`); `String` data
is kept as its byte list (the Rust code only builds it from bytes it has
already checked to be printable ASCII). -/
inductive FieldData : Type where
  | dInt (v : Int)
  | dNat (v : Nat)
  | dBool (v : Bool)
  | dBits (v : Nat)
  | dStr (s : List Nat)
  | dBytes (b : List Nat)
  | dEmbedded (fields : List FieldRec) (raw : Option (List Nat))
end

/-- The recorded field type (`self.0.type_` after deserialisation). -/
def FieldRec.type_ : FieldRec → FieldType
  | .mk _ _ t _ _ => t

/-- The recorded tag number (`self.0.number` after deserialisation). -/
def FieldRec.number : FieldRec → Nat
  | .mk _ _ _ n _ => n

/-- The recorded data payload. -/
def FieldRec.data : FieldRec → FieldData
  | .mk _ _ _ _ d => d

/-- The `raw` member of an `EmbeddedField` (`None` for every other field);
mirrors the `downcast_mut::<EmbeddedField>` + `&b.raw` inspection in
`src/parser/parser.rs` (a failed downcast behaves like `raw = None`). -/
def FieldRec.rawPayload : FieldRec → Option (List Nat)
  | .mk _ _ _ _ (.dEmbedded _ r) => r
  | _ => none

/-- `b.field.data.fields = embedded` in `src/parser/parser.rs`: store the
recursively decoded sub-fields into an embedded field. -/
def FieldRec.withSub : FieldRec → List FieldRec → FieldRec
  | .mk n ru t num (.dEmbedded _ r), sub => .mk n ru t num (.dEmbedded sub r)
  | f, _ => f

/-- Result of one `FieldTrait::deserialize` call: `Ok` with the updated field
and the consumed byte count, an `Error`, or a Rust panic (out-of-bounds
slice/index). -/
inductive FRes (α : Type) : Type where
  | ok (val : α)
  | err (e : PError)
  | panic
deriving Repr

/-! ## `src/proto/field.rs`: the per-type decoders

Every decoder below follows the same source pattern: parse the key varint,
check the wire type (`parse_key`'s second component) against the expected
`VariantTypeRaw` discriminant (Varint = 0, Double = 1, Buffer = 2,
StartGroup = 3, Float = 5), then read the payload.  Sums of `u64` values that
can wrap in Rust carry an explicit `% 2 ^ 64`. -/

/-- `Int32Field::deserialize` (`src/proto/field.rs` lines 473-508).  Note the
range check is `value >> 0x32`, i.e. a shift by 50. -/
def Int32Field.deserialize (into : List Nat) : FRes (FieldRec × Nat) :=
  let (key, readed) := deserialize_varint_raw into
  let (index, type_int) := parse_key key
  if type_int ≠ 0 then .err ⟨"expected Varint wire type", .IncorrectType⟩
  else if readed ≥ into.length then
    .err ⟨"insufficient amount of data to continue parsing", .IncorrectData⟩
  else
    let (value, readed_x) := deserialize_varint_raw (into.drop readed)
    if value >>> 0x32 ≠ 0 then
      .err ⟨"expected Int32 found U/Int64", .IncorrectData⟩
    else
      .ok (.mk "" .Optional .Int32 index (.dInt (u64_as_i32 value)), readed + readed_x)

/-- `Int64Field::deserialize` (lines 564-594).  No range check; the recorded
type is `FieldType::Int32` (line 590). -/
def Int64Field.deserialize (into : List Nat) : FRes (FieldRec × Nat) :=
  let (key, readed) := deserialize_varint_raw into
  let (index, type_int) := parse_key key
  if type_int ≠ 0 then .err ⟨"expected Varint wire type", .IncorrectType⟩
  else if readed ≥ into.length then
    .err ⟨"insufficient amount of data to continue parsing", .IncorrectData⟩
  else
    let (value, readed_x) := deserialize_varint_raw (into.drop readed)
    .ok (.mk "" .Optional .Int32 index (.dInt (u64_as_i64 value)), readed + readed_x)

/-- `UInt32Field::deserialize` (lines 649-684).  Same `>> 0x32` range check as
`Int32Field`. -/
def UInt32Field.deserialize (into : List Nat) : FRes (FieldRec × Nat) :=
  let (key, readed) := deserialize_varint_raw into
  let (index, type_int) := parse_key key
  if type_int ≠ 0 then .err ⟨"expected Varint wire type", .IncorrectType⟩
  else if readed ≥ into.length then
    .err ⟨"insufficient amount of data to continue parsing", .IncorrectData⟩
  else
    let (value, readed_x) := deserialize_varint_raw (into.drop readed)
    if value >>> 0x32 ≠ 0 then
      .err ⟨"expected UInt32 found U/Int64", .IncorrectData⟩
    else
      .ok (.mk "" .Optional .UInt32 index (.dNat (value % 2 ^ 32)), readed + readed_x)

/-- `UInt64Field::deserialize` (lines 740-769).  The recorded type is
`FieldType::Int32` (line 766). -/
def UInt64Field.deserialize (into : List Nat) : FRes (FieldRec × Nat) :=
  let (key, readed) := deserialize_varint_raw into
  let (index, type_int) := parse_key key
  if type_int ≠ 0 then .err ⟨"expected Varint wire type", .IncorrectType⟩
  else if readed ≥ into.length then
    .err ⟨"insufficient amount of data to continue parsing", .IncorrectData⟩
  else
    let (value, readed_x) := deserialize_varint_raw (into.drop readed)
    .ok (.mk "" .Optional .Int32 index (.dNat value), readed + readed_x)

/-- `SInt32Field::deserialize` (lines 825-860).  `>> 0x32` range check, ZigZag
decode, recorded type `FieldType::UInt32` (line 857). -/
def SInt32Field.deserialize (into : List Nat) : FRes (FieldRec × Nat) :=
  let (key, readed) := deserialize_varint_raw into
  let (index, type_int) := parse_key key
  if type_int ≠ 0 then .err ⟨"expected Varint wire type", .IncorrectType⟩
  else if readed ≥ into.length then
    .err ⟨"insufficient amount of data to continue parsing", .IncorrectData⟩
  else
    let (value, readed_x) := deserialize_varint_raw (into.drop readed)
    if value >>> 0x32 ≠ 0 then
      .err ⟨"expected SUInt32 found U/Int64", .IncorrectData⟩
    else
      .ok (.mk "" .Optional .UInt32 index (.dInt (decode_zigzag_s32 value)), readed + readed_x)

/-- `SInt64Field::deserialize` (lines 916-946).  ZigZag decode, recorded type
`FieldType::Int32` (line 942). -/
def SInt64Field.deserialize (into : List Nat) : FRes (FieldRec × Nat) :=
  let (key, readed) := deserialize_varint_raw into
  let (index, type_int) := parse_key key
  if type_int ≠ 0 then .err ⟨"expected Varint wire type", .IncorrectType⟩
  else if readed ≥ into.length then
    .err ⟨"insufficient amount of data to continue parsing", .IncorrectData⟩
  else
    let (value, readed_x) := deserialize_varint_raw (into.drop readed)
    .ok (.mk "" .Optional .Int32 index (.dInt (decode_zigzag_s64 value)), readed + readed_x)

/-- `BoolField::deserialize` (lines 1001-1035): payload must be 0 or 1
(`value >> 0x1` must vanish). -/
def BoolField.deserialize (into : List Nat) : FRes (FieldRec × Nat) :=
  let (key, readed) := deserialize_varint_raw into
  let (index, type_int) := parse_key key
  if type_int ≠ 0 then .err ⟨"expected Varint wire type", .IncorrectType⟩
  else if readed ≥ into.length then
    .err ⟨"insufficient amount of data to continue parsing", .IncorrectData⟩
  else
    let (value, readed_x) := deserialize_varint_raw (into.drop readed)
    if value >>> 0x1 ≠ 0 then
      .err ⟨"expected Boolean found U/Int32/64", .IncorrectData⟩
    else
      .ok (.mk "" .Optional .Bool index (.dBool (value != 0)), readed + readed_x)

/-- `Fixed32Field::deserialize` (lines 1091-1122): wire type 5, bounds-check
`readed + 4 > len`, slice `into[readed..readed + 4]`, `i32::from_le_bytes`. -/
def Fixed32Field.deserialize (into : List Nat) : FRes (FieldRec × Nat) :=
  let (key, readed) := deserialize_varint_raw into
  let (index, type_int) := parse_key key
  if type_int ≠ 5 then .err ⟨"expected Float wire type", .IncorrectType⟩
  else if readed + 4 > into.length then
    .err ⟨"expected bytes, found fewer", .IncorrectData⟩
  else
    let ptr := (into.drop readed).take 4
    match ptr[0]?, ptr[1]?, ptr[2]?, ptr[3]? with
    | some p0, some p1, some p2, some p3 =>
      let value := u64_as_i32 (p0 + p1 * 2 ^ 8 + p2 * 2 ^ 16 + p3 * 2 ^ 24)
      .ok (.mk "" .Optional .Fixed32 index (.dInt value), readed + 4)
    | _, _, _, _ => .panic

/-- `SFixed32Field::deserialize` (lines 1178-1209): like `Fixed32Field` but the
value is kept as a `u32` and the recorded type is `SFixed32`. -/
def SFixed32Field.deserialize (into : List Nat) : FRes (FieldRec × Nat) :=
  let (key, readed) := deserialize_varint_raw into
  let (index, type_int) := parse_key key
  if type_int ≠ 5 then .err ⟨"expected Float wire type", .IncorrectType⟩
  else if readed + 4 > into.length then
    .err ⟨"expected bytes, found fewer", .IncorrectData⟩
  else
    let ptr := (into.drop readed).take 4
    match ptr[0]?, ptr[1]?, ptr[2]?, ptr[3]? with
    | some p0, some p1, some p2, some p3 =>
      let value := p0 + p1 * 2 ^ 8 + p2 * 2 ^ 16 + p3 * 2 ^ 24
      .ok (.mk "" .Optional .SFixed32 index (.dNat value), readed + 4)
    | _, _, _, _ => .panic

/-- `FloatField::deserialize` (lines 1264-1296).  The slice is
`&into[readed..4]` — the end index is the absolute position 4, not
`readed + 4` — so `ptr` has only `4 - readed` elements and the subsequent
`ptr[3]` access panics whenever `readed ≥ 1`.  The slice itself panics when
`readed > 4` (start past end; the bound check guarantees `into.length ≥ 4`,
so the end index never exceeds the buffer). -/
def FloatField.deserialize (into : List Nat) : FRes (FieldRec × Nat) :=
  let (key, readed) := deserialize_varint_raw into
  let (index, type_int) := parse_key key
  if type_int ≠ 5 then .err ⟨"expected Float wire type", .IncorrectType⟩
  else if readed + 4 > into.length then
    .err ⟨"expected bytes, found fewer", .IncorrectData⟩
  else if readed > 4 then .panic
  else
    let ptr := (into.drop readed).take (4 - readed)
    match ptr[0]?, ptr[1]?, ptr[2]?, ptr[3]? with
    | some p0, some p1, some p2, some p3 =>
      let value := p0 + p1 * 2 ^ 8 + p2 * 2 ^ 16 + p3 * 2 ^ 24
      .ok (.mk "" .Optional .Float index (.dBits value), readed + 4)
    | _, _, _, _ => .panic

/-- `Fixed64Field::deserialize` (lines 1351-1383): wire type 1, bounds-check
`readed + 8 > len`, slice `into[readed..readed + 8]`, `i64::from_le_bytes`. -/
def Fixed64Field.deserialize (into : List Nat) : FRes (FieldRec × Nat) :=
  let (key, readed) := deserialize_varint_raw into
  let (index, type_int) := parse_key key
  if type_int ≠ 1 then .err ⟨"expected Double wire type", .IncorrectType⟩
  else if readed + 8 > into.length then
    .err ⟨"expected bytes, found fewer", .IncorrectData⟩
  else
    let ptr := (into.drop readed).take 8
    match ptr[0]?, ptr[1]?, ptr[2]?, ptr[3]?, ptr[4]?, ptr[5]?, ptr[6]?, ptr[7]? with
    | some p0, some p1, some p2, some p3, some p4, some p5, some p6, some p7 =>
      let value := u64_as_i64 (p0 + p1 * 2 ^ 8 + p2 * 2 ^ 16 + p3 * 2 ^ 24 +
        p4 * 2 ^ 32 + p5 * 2 ^ 40 + p6 * 2 ^ 48 + p7 * 2 ^ 56)
      .ok (.mk "" .Optional .Fixed64 index (.dInt value), readed + 8)
    | _, _, _, _, _, _, _, _ => .panic

/-- `SFixed64Field::deserialize` (lines 1439-1472): like `Fixed64Field` but the
value is kept as a `u64` and the recorded type is `SFixed64`. -/
def SFixed64Field.deserialize (into : List Nat) : FRes (FieldRec × Nat) :=
  let (key, readed) := deserialize_varint_raw into
  let (index, type_int) := parse_key key
  if type_int ≠ 1 then .err ⟨"expected Double wire type", .IncorrectType⟩
  else if readed + 8 > into.length then
    .err ⟨"expected bytes, found fewer", .IncorrectData⟩
  else
    let ptr := (into.drop readed).take 8
    match ptr[0]?, ptr[1]?, ptr[2]?, ptr[3]?, ptr[4]?, ptr[5]?, ptr[6]?, ptr[7]? with
    | some p0, some p1, some p2, some p3, some p4, some p5, some p6, some p7 =>
      let value := p0 + p1 * 2 ^ 8 + p2 * 2 ^ 16 + p3 * 2 ^ 24 +
        p4 * 2 ^ 32 + p5 * 2 ^ 40 + p6 * 2 ^ 48 + p7 * 2 ^ 56
      .ok (.mk "" .Optional .SFixed64 index (.dNat value), readed + 8)
    | _, _, _, _, _, _, _, _ => .panic

/-- `DoubleField::deserialize` (lines 1528-1560): like `Fixed64Field` with the
`f64` bit pattern as payload. -/
def DoubleField.deserialize (into : List Nat) : FRes (FieldRec × Nat) :=
  let (key, readed) := deserialize_varint_raw into
  let (index, type_int) := parse_key key
  if type_int ≠ 1 then .err ⟨"expected Double wire type", .IncorrectType⟩
  else if readed + 8 > into.length then
    .err ⟨"expected bytes, found fewer", .IncorrectData⟩
  else
    let ptr := (into.drop readed).take 8
    match ptr[0]?, ptr[1]?, ptr[2]?, ptr[3]?, ptr[4]?, ptr[5]?, ptr[6]?, ptr[7]? with
    | some p0, some p1, some p2, some p3, some p4, some p5, some p6, some p7 =>
      let value := p0 + p1 * 2 ^ 8 + p2 * 2 ^ 16 + p3 * 2 ^ 24 +
        p4 * 2 ^ 32 + p5 * 2 ^ 40 + p6 * 2 ^ 48 + p7 * 2 ^ 56
      .ok (.mk "" .Optional .Double index (.dBits value), readed + 8)
    | _, _, _, _, _, _, _, _ => .panic

/-- `StringField::deserialize` (lines 1625-1678): wire type 2, a size varint,
bound check on the (u64-wrapping) sum `readed + readed_1 + size`, then every
payload byte must be printable ASCII (`0x20 ≤ x ≤ 0x7F`); the subsequent
`String::from_utf8` cannot fail on such bytes. -/
def StringField.deserialize (into : List Nat) : FRes (FieldRec × Nat) :=
  let (key, readed) := deserialize_varint_raw into
  let (index, type_int) := parse_key key
  if type_int ≠ 2 then .err ⟨"expected Buffer wire type", .IncorrectType⟩
  else if readed ≥ into.length then
    .err ⟨"insufficient amount of data to continue parsing", .IncorrectData⟩
  else
    let (size, readed_1) := deserialize_varint_raw (into.drop readed)
    let bound := (readed + readed_1 + size) % 2 ^ 64
    if bound > into.length then .err ⟨"expected bytes, found fewer", .IncorrectData⟩
    else if bound < readed + readed_1 then .panic
    else
      let str_vec := (into.drop (readed + readed_1)).take (bound - (readed + readed_1))
      if str_vec.any (fun x => decide (x < 0x20 ∨ 0x7F < x)) then
        .err ⟨"Failed to create String from bytes(non ASCII)", .IncorrectData⟩
      else
        .ok (.mk "" .Optional .String index (.dStr str_vec), bound)

/-- `BytesField::deserialize` (lines 1744-1776): like `StringField` without the
`readed >= len` insufficiency check and without the ASCII restriction. -/
def BytesField.deserialize (into : List Nat) : FRes (FieldRec × Nat) :=
  let (key, readed) := deserialize_varint_raw into
  let (index, type_int) := parse_key key
  if type_int ≠ 2 then .err ⟨"expected Buffer wire type", .IncorrectType⟩
  else
    let (size, readed_1) := deserialize_varint_raw (into.drop readed)
    let bound := (readed + readed_1 + size) % 2 ^ 64
    if bound > into.length then .err ⟨"expected bytes, found fewer", .IncorrectData⟩
    else if bound < readed + readed_1 then .panic
    else
      let value := (into.drop (readed + readed_1)).take (bound - (readed + readed_1))
      .ok (.mk "" .Optional .Bytes index (.dBytes value), bound)

/-- `EmbeddedField::deserialize` (lines 1992-2030): records the raw payload in
`raw` and resets the nested field list; the recursive population happens in the
parsers. -/
def EmbeddedField.deserialize (into : List Nat) : FRes (FieldRec × Nat) :=
  let (key, readed) := deserialize_varint_raw into
  let (index, type_int) := parse_key key
  if type_int ≠ 2 then .err ⟨"expected Buffer wire type", .IncorrectType⟩
  else if readed ≥ into.length then
    .err ⟨"insufficient amount of data to continue parsing", .IncorrectData⟩
  else
    let (size, readed_1) := deserialize_varint_raw (into.drop readed)
    let bound := (readed + readed_1 + size) % 2 ^ 64
    if bound > into.length then .err ⟨"expected bytes, found fewer", .IncorrectData⟩
    else if bound < readed + readed_1 then .panic
    else
      let raw := (into.drop (readed + readed_1)).take (bound - (readed + readed_1))
      .ok (.mk "" .Optional .Embedded index (.dEmbedded [] (some raw)), bound)

/-- `StartGroupField::deserialize` (lines 1839-1866): wire type 3, consumes
only the key; the recorded type is `FieldType::Int32` (line 1863). -/
def StartGroupField.deserialize (into : List Nat) : FRes (FieldRec × Nat) :=
  let (key, readed) := deserialize_varint_raw into
  let (index, type_int) := parse_key key
  if type_int ≠ 3 then .err ⟨"expected StartGroup wire type", .IncorrectType⟩
  else
    .ok (.mk "" .Optional .Int32 index (.dInt 0), readed)

/-- `Field::<Vec<u8>>::deserialize` (lines 377-418), used by the factory for
`Enum`, `Repeated` and `EndGroup`.  Note the returned count double-counts
`readed` (line 416). -/
def GenericField.deserialize (into : List Nat) : FRes (FieldRec × Nat) :=
  let (key, readed) := deserialize_varint_raw into
  let (index, type_int) := parse_key key
  if type_int ≠ 2 then .err ⟨"expected Buffer wire type", .IncorrectType⟩
  else if readed ≥ into.length then
    .err ⟨"insufficient amount of data to continue parsing", .IncorrectData⟩
  else
    let (size, readed_1) := deserialize_varint_raw (into.drop readed)
    let bound := (readed + readed_1 + size) % 2 ^ 64
    if bound > into.length then .err ⟨"expected bytes, found fewer", .IncorrectData⟩
    else if bound < readed + readed_1 then .panic
    else
      let value := (into.drop (readed + readed_1)).take (bound - (readed + readed_1))
      .ok (.mk "" .Optional .Bytes index (.dBytes value),
        (readed + readed + readed_1 + size) % 2 ^ 64)

/-- `From<FieldType> for Box<dyn FieldTrait>` (lines 193-218) composed with the
dispatched `deserialize` call of `try_deserialize_specific_field`
(`src/parser/parser.rs` lines 40-47).  Note `FieldType::SFixed32` is mapped to
`Fixed64Field` (line 214), and `Enum`/`Repeated`/`EndGroup` to the plain
`Field::default()`. -/
def deserializeByType : FieldType → List Nat → FRes (FieldRec × Nat)
  | .Int32, into => Int32Field.deserialize into
  | .Int64, into => Int64Field.deserialize into
  | .UInt32, into => UInt32Field.deserialize into
  | .UInt64, into => UInt64Field.deserialize into
  | .SInt32, into => SInt32Field.deserialize into
  | .SInt64, into => SInt64Field.deserialize into
  | .Bool, into => BoolField.deserialize into
  | .Enum, into => GenericField.deserialize into
  | .Fixed64, into => Fixed64Field.deserialize into
  | .SFixed64, into => SFixed64Field.deserialize into
  | .Double, into => DoubleField.deserialize into
  | .Embedded, into => EmbeddedField.deserialize into
  | .Repeated, into => GenericField.deserialize into
  | .Bytes, into => BytesField.deserialize into
  | .String, into => StringField.deserialize into
  | .StartGroup, into => StartGroupField.deserialize into
  | .EndGroup, into => GenericField.deserialize into
  | .Fixed32, into => Fixed32Field.deserialize into
  | .SFixed32, into => Fixed64Field.deserialize into
  | .Float, into => FloatField.deserialize into

/-! ## `src/proto/message.rs` and `src/parser/parser.rs` -/

/-- `Message` from `src/proto/message.rs`. -/
structure Message : Type where
  name : String
  fields : List FieldRec

/-- Outcome of the priority-order search over the candidate field types:
first success, exhaustion (`found == false` in the parser loops /
`Err("Failed to parse bytes")` in `try_deserialize_field`), or a panic of one
of the candidates. -/
inductive PRes : Type where
  | ok (f : FieldRec) (consumed : Nat)
  | nomatch
  | panic

/-- Result of a parser loop: success, an error, a panic, or exhaustion of the
fuel that models the unbounded Rust loop/recursion. -/
inductive DRes (α : Type) : Type where
  | ok (val : α)
  | err (e : PError)
  | outOfFuel
  | panic

/-- `SimpleFieldsOrder` (`src/parser/parser.rs` lines 11-32): the fixed
type-priority order (`Enum`, `Repeated` and `EndGroup` are commented out). -/
def SimpleFieldsOrder : List FieldType :=
  [.Int32, .Int64, .UInt32, .UInt64, .SInt32, .SInt64, .Bool,
   .Fixed64, .SFixed64, .Double, .Fixed32, .SFixed32, .Float,
   .String, .Embedded, .Bytes, .StartGroup]

/-- The candidates strictly before `Embedded` in `SimpleFieldsOrder`; the
`FullParser`/`PartialParser` loops treat `Embedded` specially, everything
else uniformly. -/
def fieldsOrderPre : List FieldType :=
  [.Int32, .Int64, .UInt32, .UInt64, .SInt32, .SInt64, .Bool,
   .Fixed64, .SFixed64, .Double, .Fixed32, .SFixed32, .Float, .String]

/-- The candidates strictly after `Embedded` in `SimpleFieldsOrder`. -/
def fieldsOrderPost : List FieldType := [.Bytes, .StartGroup]

/-- First-success iteration over a list of candidate field types
(`try_deserialize_field`, `src/parser/parser.rs` lines 49-66, and the
non-`Embedded` arms of the `for field_type in self.fields_order` loops):
an `Err` moves on to the next candidate, an `Ok` stops the search. -/
def tryFieldsOrder : List FieldType → List Nat → PRes
  | [], _ => .nomatch
  | t :: ts, into =>
    match deserializeByType t into with
    | .ok (f, c) => .ok f c
    | .err _ => tryFieldsOrder ts into
    | .panic => .panic

/-- `SimpleParser::try_deserialize_field`: the full priority order. -/
def try_deserialize_field (into : List Nat) : PRes :=
  tryFieldsOrder SimpleFieldsOrder into

/-- The `while index != into.len()` loop of `SimpleParser::deserialize`
(`src/parser/parser.rs` lines 82-102), with fuel for the unbounded loop. -/
def simpleGo : Nat → List Nat → Nat → List FieldRec → DRes Message
  | 0, _, _, _ => .outOfFuel
  | fuel + 1, into, index, fields =>
    if index = into.length then .ok ⟨"Generated", fields⟩
    else
      match try_deserialize_field (into.drop index) with
      | .ok f c => simpleGo fuel into (index + c) (fields ++ [f])
      | .nomatch => .err ⟨"Failed to parse bytes", .GeneralError⟩
      | .panic => .panic

/-- `SimpleParser::deserialize` with the canonical fuel `len + 1` (sufficient
whenever every accepted field consumes at least one byte). -/
def SimpleParser.deserialize (into : List Nat) : DRes Message :=
  simpleGo (into.length + 1) into 0 []

/-- The `while index != into.len()` loop of `FullParser::deserialize_fields`
(`src/parser/parser.rs` lines 118-193).  The priority order is walked in
source order; for the `Embedded` candidate a success additionally requires the
recursive decode of the raw payload, and a recursive failure falls through to
the candidates after `Embedded` (`Bytes`, `StartGroup`).  If no candidate
matches the whole decode fails. -/
def fullGo : Nat → List Nat → Nat → List FieldRec → DRes (List FieldRec × Nat)
  | 0, _, _, _ => .outOfFuel
  | fuel + 1, into, index, fields =>
    if index = into.length then .ok (fields, index)
    else
      let rem := into.drop index
      match tryFieldsOrder fieldsOrderPre rem with
      | .ok f c => fullGo fuel into (index + c) (fields ++ [f])
      | .panic => .panic
      | .nomatch =>
        match EmbeddedField.deserialize rem with
        | .panic => .panic
        | .err _ =>
          match tryFieldsOrder fieldsOrderPost rem with
          | .ok f c => fullGo fuel into (index + c) (fields ++ [f])
          | .panic => .panic
          | .nomatch => .err ⟨"Failed to find suitable field", .GeneralError⟩
        | .ok (f, c) =>
          match f.rawPayload with
          | none =>
            match tryFieldsOrder fieldsOrderPost rem with
            | .ok f c => fullGo fuel into (index + c) (fields ++ [f])
            | .panic => .panic
            | .nomatch => .err ⟨"Failed to find suitable field", .GeneralError⟩
          | some data =>
            match fullGo fuel data 0 [] with
            | .ok (sub, _) => fullGo fuel into (index + c) (fields ++ [f.withSub sub])
            | .err _ =>
              match tryFieldsOrder fieldsOrderPost rem with
              | .ok f c => fullGo fuel into (index + c) (fields ++ [f])
              | .panic => .panic
              | .nomatch => .err ⟨"Failed to find suitable field", .GeneralError⟩
            | .outOfFuel => .outOfFuel
            | .panic => .panic

/-- `FullParser::deserialize_fields` with the canonical fuel `len + 1`. -/
def FullParser.deserializeFields (into : List Nat) : DRes (List FieldRec × Nat) :=
  fullGo (into.length + 1) into 0 []

/-- `<FullParser as Parser>::deserialize` (lines 196-201). -/
def FullParser.deserialize (into : List Nat) : DRes Message :=
  match FullParser.deserializeFields into with
  | .ok (x, _) => .ok ⟨"Generated", x⟩
  | .err e => .err e
  | .outOfFuel => .outOfFuel
  | .panic => .panic

/-- The loop of `PartialParser::deserialize_fields` (`src/parser/parser.rs`
lines 216-291): identical to `fullGo` except that exhausting the candidate
list returns `Ok((fields, index))` instead of an error. -/
def scanGo : Nat → List Nat → Nat → List FieldRec → DRes (List FieldRec × Nat)
  | 0, _, _, _ => .outOfFuel
  | fuel + 1, into, index, fields =>
    if index = into.length then .ok (fields, index)
    else
      let rem := into.drop index
      match tryFieldsOrder fieldsOrderPre rem with
      | .ok f c => scanGo fuel into (index + c) (fields ++ [f])
      | .panic => .panic
      | .nomatch =>
        match EmbeddedField.deserialize rem with
        | .panic => .panic
        | .err _ =>
          match tryFieldsOrder fieldsOrderPost rem with
          | .ok f c => scanGo fuel into (index + c) (fields ++ [f])
          | .panic => .panic
          | .nomatch => .ok (fields, index)
        | .ok (f, c) =>
          match f.rawPayload with
          | none =>
            match tryFieldsOrder fieldsOrderPost rem with
            | .ok f c => scanGo fuel into (index + c) (fields ++ [f])
            | .panic => .panic
            | .nomatch => .ok (fields, index)
          | some data =>
            match scanGo fuel data 0 [] with
            | .ok (sub, _) => scanGo fuel into (index + c) (fields ++ [f.withSub sub])
            | .err _ =>
              match tryFieldsOrder fieldsOrderPost rem with
              | .ok f c => scanGo fuel into (index + c) (fields ++ [f])
              | .panic => .panic
              | .nomatch => .ok (fields, index)
            | .outOfFuel => .outOfFuel
            | .panic => .panic

/-- `PartialParser::deserialize_fields` with the canonical fuel `len + 1`. -/
def PartialParser.deserializeFields (into : List Nat) : DRes (List FieldRec × Nat) :=
  scanGo (into.length + 1) into 0 []

/-- The `for start_bytes in 0..into.len()` driver loop of
`PartialParser::deserialize_map` (lines 293-308), structured over the number
of remaining loop iterations (the wrapper starts it with `into.length`
iterations from offset 0, exactly the Rust range).  Entries are produced in
increasing `start_bytes` order, which is also the `BTreeMap` key order since
the keys start with `start_bytes`.  The Rust `if let Ok` silently skips an
`Err` result (which `deserialize_fields` never actually produces). -/
def dmapGo (into : List Nat) : Nat → Nat → DRes (List ((Nat × Nat) × Message))
  | 0, _ => .ok []
  | remaining + 1, start_bytes =>
    match PartialParser.deserializeFields (into.drop start_bytes) with
    | .ok (message, end_bytes) =>
      match dmapGo into remaining (start_bytes + 1) with
      | .ok rest =>
        if message.isEmpty then .ok rest
        else .ok (((start_bytes, start_bytes + end_bytes), ⟨"Generated", message⟩) :: rest)
      | .err e => .err e
      | .outOfFuel => .outOfFuel
      | .panic => .panic
    | .err _ => dmapGo into remaining (start_bytes + 1)
    | .outOfFuel => .outOfFuel
    | .panic => .panic

/-- `PartialParser::deserialize_map`: one loop iteration per start offset
`0..into.len()`. -/
def PartialParser.deserializeMap (into : List Nat) :
    DRes (List ((Nat × Nat) × Message)) :=
  dmapGo into into.length 0

/-- Key lookup in the result list of `deserialize_map` (the `BTreeMap`
membership used by the scanning-completeness property). -/
def findEntry (k : Nat × Nat) : List ((Nat × Nat) × Message) → Option Message
  | [] => none
  | (k₀, m) :: rest => if k₀ = k then some m else findEntry k rest

/-! ## General bit-manipulation lemmas -/

lemma and_mask_127 (x : Nat) : x &&& 127 = x % 128 := by
  have h : (127 : Nat) = 2 ^ 7 - 1 := by norm_num
  rw [h, Nat.and_pow_two_sub_one_eq_mod]

lemma shiftRight_7 (x : Nat) : x >>> 7 = x / 128 := by
  rw [Nat.shiftRight_eq_div_pow]

lemma xor_mod_two_pow (a b n : Nat) :
    (a ^^^ b) % 2 ^ n = (a % 2 ^ n) ^^^ (b % 2 ^ n) := by
  apply Nat.eq_of_testBit_eq
  intro i
  simp only [Nat.testBit_mod_two_pow, Nat.testBit_xor]
  cases h : decide (i < n) <;> simp

lemma or_disjoint {n b : Nat} (hb : b < 2 ^ n) (a : Nat) :
    (a * 2 ^ n) ||| b = a * 2 ^ n + b := by
  rw [Nat.mul_comm a (2 ^ n), Nat.mul_add_lt_is_or hb]

lemma xor_disjoint {n b : Nat} (hb : b < 2 ^ n) (a : Nat) :
    (a * 2 ^ n) ^^^ b = a * 2 ^ n + b := by
  have hor : (a * 2 ^ n) ||| b = a * 2 ^ n + b := or_disjoint hb a
  rw [← hor]
  apply Nat.eq_of_testBit_eq
  intro i
  simp only [Nat.testBit_xor, Nat.testBit_or]
  rcases Nat.lt_or_ge i n with hi | hi
  · have hlo : (a * 2 ^ n).testBit i = false := by
      rw [Nat.mul_comm, Nat.testBit_mul_pow_two]
      simp [Nat.not_le_of_lt hi]
    simp [hlo]
  · have hbi : b.testBit i = false :=
      Nat.testBit_lt_two_pow (lt_of_lt_of_le hb (Nat.pow_le_pow_right (by norm_num) hi))
    simp [hbi]

lemma xor_all_ones {n w : Nat} (h : w < 2 ^ n) :
    w ^^^ (2 ^ n - 1) = 2 ^ n - 1 - w := by
  have h1 : 2 ^ n - 1 - w = 2 ^ n - (w + 1) := by omega
  rw [h1]
  apply Nat.eq_of_testBit_eq
  intro i
  rw [Nat.testBit_two_pow_sub_succ h]
  simp only [Nat.testBit_xor, Nat.testBit_two_pow_sub_one]
  rcases Nat.lt_or_ge i n with hi | hi
  · simp [hi]
  · have hwi : w.testBit i = false :=
      Nat.testBit_lt_two_pow (lt_of_lt_of_le h (Nat.pow_le_pow_right (by norm_num) hi))
    simp [hwi, Nat.not_lt_of_le hi]

/-! ## Varint round-trip -/

lemma varint_groups_small {x : Nat} (hx : x ≠ 0) (hlt : x < 128) :
    varint_groups x = [x] := by
  rw [varint_groups]
  have h7 : x >>> 7 = 0 := by rw [shiftRight_7]; omega
  simp [hx, h7, and_mask_127, Nat.mod_eq_of_lt hlt, varint_groups]

lemma varint_groups_large {x : Nat} (hge : 128 ≤ x) :
    varint_groups x = (x % 128 + 128) :: varint_groups (x >>> 7) := by
  rw [varint_groups]
  have hx : x ≠ 0 := by omega
  have h7 : x >>> 7 ≠ 0 := by rw [shiftRight_7]; omega
  have hb : (x &&& 127) ||| 128 = x % 128 + 128 := by
    rw [and_mask_127]
    have h2 : (128 : Nat) = 1 * 2 ^ 7 := by norm_num
    rw [Nat.or_comm, h2, or_disjoint (by omega)]
    omega
  simp [hx, h7, hb]

lemma deserialize_go_groups (x : Nat) :
    x ≠ 0 → ∀ (i acc : Nat) (rest : List Nat),
      x * 2 ^ (i * 7) < 2 ^ 64 → acc < 2 ^ (i * 7) →
      deserialize_varint_go (varint_groups x ++ rest) i acc
        = (acc + x * 2 ^ (i * 7), i + (varint_groups x).length) := by
  induction x using Nat.strong_induction_on with
  | _ x ih =>
    intro hx i acc rest hbound hacc
    have hshift : i * 7 < 64 := by
      by_contra hge
      have h1 : (2 : Nat) ^ 64 ≤ 2 ^ (i * 7) :=
        Nat.pow_le_pow_right (by norm_num) (by omega)
      have h2 : 2 ^ (i * 7) ≤ x * 2 ^ (i * 7) :=
        Nat.le_mul_of_pos_left _ (Nat.pos_of_ne_zero hx)
      omega
    have hmod : i * 7 % 64 = i * 7 := Nat.mod_eq_of_lt hshift
    rcases Nat.lt_or_ge x 128 with hlt | hge
    · rw [varint_groups_small hx hlt, List.singleton_append, deserialize_varint_go]
      have h7 : x >>> 7 = 0 := by rw [shiftRight_7]; omega
      have hsh : (x &&& 127) <<< (i * 7 % 64) = x * 2 ^ (i * 7) := by
        rw [and_mask_127, Nat.mod_eq_of_lt hlt, hmod, Nat.shiftLeft_eq]
      simp only [hsh, Nat.mod_eq_of_lt hbound, h7, if_true]
      rw [Nat.or_comm, or_disjoint hacc, Nat.add_comm (x * 2 ^ (i * 7)) acc]
      simp [varint_groups_small hx hlt]
    · rw [varint_groups_large hge, List.cons_append, deserialize_varint_go]
      have hb1 : (x % 128 + 128) &&& 127 = x % 128 := by
        rw [and_mask_127]; omega
      have hb7 : (x % 128 + 128) >>> 7 = 1 := by rw [shiftRight_7]; omega
      have hle : x % 128 * 2 ^ (i * 7) ≤ x * 2 ^ (i * 7) :=
        Nat.mul_le_mul_right _ (Nat.mod_le x 128)
      have hsh : (x % 128) <<< (i * 7 % 64) = x % 128 * 2 ^ (i * 7) := by
        rw [hmod, Nat.shiftLeft_eq]
      simp only [hb1, hsh, Nat.mod_eq_of_lt (lt_of_le_of_lt hle hbound), hb7,
        if_neg (by omega : ¬ (1 : Nat) = 0), Nat.one_ne_zero, if_false]
      rw [Nat.or_comm, or_disjoint hacc]
      have hx7 : x >>> 7 ≠ 0 := by rw [shiftRight_7]; omega
      have hlt2 : x >>> 7 < x := by
        rw [shiftRight_7]; exact Nat.div_lt_self (by omega) (by norm_num)
      have hpow : 2 ^ ((i + 1) * 7) = 2 ^ (i * 7) * 2 ^ 7 := by
        rw [← Nat.pow_add]; ring_nf
      have hxsplit : x = 128 * (x >>> 7) + x % 128 := by
        rw [shiftRight_7]; omega
      have hbound2 : (x >>> 7) * 2 ^ ((i + 1) * 7) < 2 ^ 64 := by
        rw [hpow]
        calc (x >>> 7) * (2 ^ (i * 7) * 2 ^ 7)
            = (128 * (x >>> 7)) * 2 ^ (i * 7) := by ring_nf
          _ ≤ x * 2 ^ (i * 7) := Nat.mul_le_mul_right _ (by omega)
          _ < 2 ^ 64 := hbound
      have hacc2 : x % 128 * 2 ^ (i * 7) + acc < 2 ^ ((i + 1) * 7) := by
        rw [hpow]
        have h1 : x % 128 * 2 ^ (i * 7) ≤ 127 * 2 ^ (i * 7) :=
          Nat.mul_le_mul_right _ (by omega)
        have h2 : (2 : Nat) ^ 7 = 128 := by norm_num
        rw [h2]
        omega
      rw [ih (x >>> 7) hlt2 hx7 (i + 1) (x % 128 * 2 ^ (i * 7) + acc) rest hbound2 hacc2]
      simp only [Prod.mk.injEq]
      constructor
      · rw [hpow]
        calc x % 128 * 2 ^ (i * 7) + acc + x >>> 7 * (2 ^ (i * 7) * 2 ^ 7)
            = acc + (128 * (x >>> 7) + x % 128) * 2 ^ (i * 7) := by ring_nf
          _ = acc + x * 2 ^ (i * 7) := by rw [← hxsplit]
      · simp only [List.length_cons]
        omega

lemma deserialize_serialize_append (v : Nat) (hv : v < 2 ^ 64) (rest : List Nat) :
    deserialize_varint_raw (serialize_varint v ++ rest)
      = (v, (serialize_varint v).length) := by
  rcases eq_or_ne v 0 with rfl | hne
  · simp [serialize_varint, deserialize_varint_raw, deserialize_varint_go]
  · rw [serialize_varint, if_neg hne, deserialize_varint_raw,
      deserialize_go_groups v hne 0 0 rest (by simpa using hv) (by norm_num)]
    simp [serialize_varint, hne]

lemma varint_groups_last (x : Nat) :
    x ≠ 0 → ∃ l b, varint_groups x = l ++ [b] ∧ 0 < b ∧ b < 128 := by
  induction x using Nat.strong_induction_on with
  | _ x ih =>
    intro hx
    rcases Nat.lt_or_ge x 128 with hlt | hge
    · exact ⟨[], x, by rw [varint_groups_small hx hlt]; simp, Nat.pos_of_ne_zero hx, hlt⟩
    · have hx7 : x >>> 7 ≠ 0 := by rw [shiftRight_7]; omega
      have hlt' : x >>> 7 < x := by
        rw [shiftRight_7]; exact Nat.div_lt_self (by omega) (by norm_num)
      obtain ⟨l, b, hl, hb0, hb⟩ := ih (x >>> 7) hlt' hx7
      exact ⟨(x % 128 + 128) :: l, b, by rw [varint_groups_large hge, hl]; simp, hb0, hb⟩

/-- C1.  Varint round-trip: for every `u64` value `v`, `deserialize_varint`
applied to `serialize_varint v` returns `Ok (v, n)` where `n` is exactly the
length of `serialize_varint v`; `serialize_varint 0` is the single byte `0x00`,
and for `v ≠ 0` the final (most significant) byte of the encoding is a
terminator with a non-zero 7-bit group, i.e. the encoding carries no redundant
leading zero groups. -/
theorem varint_roundtrip_minimal (v : Nat) (hv : v < 2 ^ 64) :
    deserialize_varint (serialize_varint v) = .ok (v, (serialize_varint v).length)
    ∧ serialize_varint 0 = [0]
    ∧ (v ≠ 0 → ∃ l b, serialize_varint v = l ++ [b] ∧ 0 < b ∧ b < 128) := by
  refine ⟨?_, rfl, ?_⟩
  · have h := deserialize_serialize_append v hv []
    rw [List.append_nil] at h
    rw [deserialize_varint, h]
  · intro hne
    rw [serialize_varint, if_neg hne]
    exact varint_groups_last v hne

/-- Witness for C1 at `v = 150` (`serialize_varint 150 = [0x96, 0x01]`). -/
theorem varint_roundtrip_minimal_witness :
    deserialize_varint (serialize_varint 150)
        = .ok (150, (serialize_varint 150).length)
    ∧ serialize_varint 0 = [0]
    ∧ ((150 : Nat) ≠ 0 → ∃ l b, serialize_varint 150 = l ++ [b] ∧ 0 < b ∧ b < 128) :=
  varint_roundtrip_minimal 150 (by norm_num)

/-! ## Varint truncation behaviour (C2) -/

lemma deserialize_go_no_terminator (s : List Nat) :
    ∀ i acc, (∀ b ∈ s, b >>> 7 ≠ 0) → (deserialize_varint_go s i acc).2 = 0 := by
  induction s with
  | nil => intro i acc _; rfl
  | cons b rest ih =>
    intro i acc h
    have hb : ¬ b >>> 7 = 0 := h b (by simp)
    rw [deserialize_varint_go]
    simp only [if_neg hb]
    exact ih _ _ (fun y hy => h y (by simp [hy]))

lemma deserialize_go_stop (s : List Nat) :
    ∀ (t : List Nat) (i acc : Nat), (∃ b ∈ s, b >>> 7 = 0) →
      deserialize_varint_go (s ++ t) i acc = deserialize_varint_go s i acc := by
  induction s with
  | nil => intro t i acc h; simp at h
  | cons b rest ih =>
    intro t i acc h
    by_cases hb : b >>> 7 = 0
    · simp only [List.cons_append, deserialize_varint_go, if_pos hb]
    · have h2 : ∃ y ∈ rest, y >>> 7 = 0 := by
        rcases h with ⟨c, hc, hc0⟩
        rcases List.mem_cons.mp hc with rfl | hmem
        · exact absurd hc0 hb
        · exact ⟨c, hmem, hc0⟩
      simp only [List.cons_append, deserialize_varint_go, if_neg hb]
      exact ih t _ _ h2

/-- C2 counterexample.  On the all-continuation sequence `[0x80]` (no
terminating byte), `deserialize_varint` does not return an error: it returns
`Ok((0, 0))` — a success with zero bytes consumed. -/
theorem varint_truncation_counterexample :
    deserialize_varint [0x80] = .ok (0, 0) := rfl

/-- C2 (amended).  For every byte sequence without a terminating byte
(including the empty one) `deserialize_varint` returns `Ok` with `readed = 0`
rather than a `Truncated` error — the Rust function has no error path at all;
and for every input it never reads past the first terminating byte: appending
anything after a sequence that contains a terminator leaves the result
unchanged. -/
theorem varint_truncation_behavior (s : List Nat) :
    ((∀ b ∈ s, b >>> 7 ≠ 0) → ∃ r, deserialize_varint s = .ok (r, 0))
    ∧ ∀ t : List Nat, (∃ b ∈ s, b >>> 7 = 0) →
        deserialize_varint (s ++ t) = deserialize_varint s := by
  constructor
  · intro h
    refine ⟨(deserialize_varint_go s 0 0).1, ?_⟩
    have h2 := deserialize_go_no_terminator s 0 0 h
    rw [deserialize_varint, deserialize_varint_raw]
    cases h3 : deserialize_varint_go s 0 0 with
    | mk a b => rw [h3] at h2; simp at h2; simp [h2]
  · intro t h
    rw [deserialize_varint, deserialize_varint, deserialize_varint_raw,
      deserialize_varint_raw, deserialize_go_stop s t 0 0 h]

/-- Witness for C2 (amended) at `s = [0x80, 0x81]` (no terminator) and
`s = [0x05]`, `t = [0x99]` (terminator then junk). -/
theorem varint_truncation_behavior_witness :
    (∃ r, deserialize_varint [0x80, 0x81] = .ok (r, 0))
    ∧ deserialize_varint ([0x05] ++ [0x99]) = deserialize_varint [0x05] :=
  ⟨(varint_truncation_behavior [0x80, 0x81]).1 (by decide),
   (varint_truncation_behavior [0x05]).2 [0x99] (by decide)⟩

/-! ## ZigZag round-trip (C8) -/

lemma high_plus_xor_mask {k w : Nat} (hw : w < 2 ^ k) :
    (2 ^ k + w) ^^^ (2 ^ k - 1) = 2 ^ (k + 1) - 1 - w := by
  have hstep : (2 ^ k + w) = (1 * 2 ^ k) ^^^ w := by
    rw [xor_disjoint hw 1, one_mul]
  rw [hstep, Nat.xor_assoc, xor_all_ones hw,
    xor_disjoint (show 2 ^ k - 1 - w < 2 ^ k by omega) 1, one_mul]
  have h2 : 2 ^ (k + 1) = 2 ^ k * 2 := by rw [pow_succ]
  omega

lemma high_xor_low_mask {k m : Nat} (hm : m < 2 ^ k) :
    2 ^ k ^^^ (m ^^^ (2 ^ k - 1)) = 2 ^ (k + 1) - 1 - m := by
  rw [xor_all_ones hm]
  have h := xor_disjoint (show 2 ^ k - 1 - m < 2 ^ k by omega) 1
  rw [one_mul] at h
  rw [h]
  have h2 : 2 ^ (k + 1) = 2 ^ k * 2 := by rw [pow_succ]
  omega

/-- 32-bit half of the ZigZag round-trip. -/
lemma zigzag_roundtrip_s32 (x : Int) (h1 : -2 ^ 31 ≤ x) (h2 : x < 2 ^ 31) :
    decode_zigzag_s32 (encode_zigzag_s32 x) = x := by
  rcases le_or_lt 0 x with hpos | hneg
  · -- non-negative values: encoding is 2 * m
    have hu : i32_as_u32 x = x.toNat := by
      rw [i32_as_u32, Int.emod_eq_of_lt hpos (by omega)]
    set m : Nat := x.toNat with hmdef
    have hmlt : m < 2 ^ 31 := by omega
    have henc : encode_zigzag_s32 x = m * 2 := by
      rw [encode_zigzag_s32, hu]
      have hdiv : m >>> 31 = 0 := by
        rw [Nat.shiftRight_eq_div_pow]
        omega
      rw [if_pos hdiv, hdiv, Nat.xor_zero, Nat.shiftLeft_eq, pow_one,
        Nat.mod_eq_of_lt (by omega)]
    rw [henc, decode_zigzag_s32]
    have hand : (m * 2) &&& 1 = 0 := by rw [Nat.and_one_is_mod]; omega
    rw [if_pos hand]
    have hsh1 : (m * 2) >>> 1 = m := by rw [Nat.shiftRight_eq_div_pow]; omega
    have hsh31 : (m * 2) <<< 31 % 2 ^ 64 = m * 2 ^ 32 := by
      rw [Nat.shiftLeft_eq]
      have he : m * 2 * 2 ^ 31 = m * 2 ^ 32 := by ring
      have hle2 : m * 2 ^ 32 ≤ (2 ^ 32 - 1) * 2 ^ 32 :=
        Nat.mul_le_mul_right _ (by omega)
      rw [he, Nat.mod_eq_of_lt (by omega)]
    rw [hsh1, hsh31, u64_as_i32]
    have hxm : (m * 2 ^ 32 ^^^ m) % 2 ^ 32 = m := by
      rw [xor_mod_two_pow, Nat.mul_mod_left, Nat.zero_xor, Nat.mod_eq_of_lt (by omega)]
    simp only [hxm, if_pos (by omega : m < 2 ^ 31)]
    omega
  · -- negative values: encoding is 2 * m + 1 with m = -x - 1
    have hmod : x % (2 ^ 32 : Int) = x + 2 ^ 32 := by omega
    have hu : i32_as_u32 x = (x + 2 ^ 32).toNat := by rw [i32_as_u32, hmod]
    set u : Nat := (x + 2 ^ 32).toNat with hudef
    have hu31 : 2 ^ 31 ≤ u := by omega
    have hu32 : u < 2 ^ 32 := by omega
    set w : Nat := u - 2 ^ 31 with hwdef
    have hw : w < 2 ^ 31 := by omega
    have henc : encode_zigzag_s32 x = (2 ^ 31 - 1 - w) * 2 + 1 := by
      rw [encode_zigzag_s32, hu]
      have hdiv : u >>> 31 = 1 := by rw [Nat.shiftRight_eq_div_pow]; omega
      rw [if_neg (by rw [hdiv]; omega), hdiv]
      have hxu : u ^^^ 0x7FFFFFFF = 2 ^ 32 - 1 - w := by
        have husplit : u = 2 ^ 31 + w := by omega
        have hmask : (0x7FFFFFFF : Nat) = 2 ^ 31 - 1 := by norm_num
        rw [husplit, hmask, high_plus_xor_mask hw]
      rw [hxu, Nat.shiftLeft_eq, pow_one]
      have hsm : (2 ^ 32 - 1 - w) * 2 % 2 ^ 32 = 2 ^ 32 - 2 - 2 * w := by omega
      rw [hsm]
      have hveq : 2 ^ 32 - 2 - 2 * w = (2 ^ 31 - 1 - w) * 2 ^ 1 := by
        rw [pow_one]; omega
      rw [hveq, xor_disjoint (by omega) (2 ^ 31 - 1 - w), pow_one]
    set m : Nat := 2 ^ 31 - 1 - w with hmdef
    rw [henc, decode_zigzag_s32]
    have hand : (m * 2 + 1) &&& 1 = 1 := by rw [Nat.and_one_is_mod]; omega
    rw [if_neg (by rw [hand]; omega)]
    have hsh1 : (m * 2 + 1) >>> 1 = m := by rw [Nat.shiftRight_eq_div_pow]; omega
    have hm31 : m < 2 ^ 31 := by omega
    have hsh31 : (m * 2 + 1) <<< 31 % 2 ^ 64 = m * 2 ^ 32 + 2 ^ 31 := by
      rw [Nat.shiftLeft_eq]
      have he : (m * 2 + 1) * 2 ^ 31 = m * 2 ^ 32 + 2 ^ 31 := by ring
      have hle2 : m * 2 ^ 32 ≤ (2 ^ 32 - 1) * 2 ^ 32 :=
        Nat.mul_le_mul_right _ (by omega)
      rw [he, Nat.mod_eq_of_lt (by omega)]
    rw [hsh1, hsh31, u64_as_i32]
    have hcore : ((m * 2 ^ 32 + 2 ^ 31) ^^^ m ^^^ 0x7FFFFFFF) % 2 ^ 32
        = 2 ^ 32 - 1 - m := by
      have hmask : (0x7FFFFFFF : Nat) = 2 ^ 31 - 1 := by norm_num
      rw [hmask, xor_mod_two_pow, xor_mod_two_pow]
      have hc1 : (m * 2 ^ 32 + 2 ^ 31) % 2 ^ 32 = 2 ^ 31 := by omega
      have hc2 : m % 2 ^ 32 = m := by omega
      have hc3 : (2 ^ 31 - 1 : Nat) % 2 ^ 32 = 2 ^ 31 - 1 := by norm_num
      rw [hc1, hc2, hc3, Nat.xor_assoc, high_xor_low_mask hm31]
    simp only [hcore]
    rw [if_neg (by omega)]
    omega

/-- 64-bit half of the ZigZag round-trip. -/
lemma zigzag_roundtrip_s64 (x : Int) (h1 : -2 ^ 63 ≤ x) (h2 : x < 2 ^ 63) :
    decode_zigzag_s64 (encode_zigzag_s64 x) = x := by
  rcases le_or_lt 0 x with hpos | hneg
  · have hu : i64_as_u64 x = x.toNat := by
      rw [i64_as_u64, Int.emod_eq_of_lt hpos (by omega)]
    set m : Nat := x.toNat with hmdef
    have hmlt : m < 2 ^ 63 := by omega
    have henc : encode_zigzag_s64 x = m * 2 := by
      rw [encode_zigzag_s64, hu]
      have hdiv : m >>> 63 = 0 := by rw [Nat.shiftRight_eq_div_pow]; omega
      rw [if_pos hdiv, hdiv, Nat.xor_zero, Nat.shiftLeft_eq, pow_one,
        Nat.mod_eq_of_lt (by omega)]
    rw [henc, decode_zigzag_s64]
    have hand : (m * 2) &&& 1 = 0 := by rw [Nat.and_one_is_mod]; omega
    rw [if_pos hand]
    have hsh1 : (m * 2) >>> 1 = m := by rw [Nat.shiftRight_eq_div_pow]; omega
    have hsh63 : (m * 2) <<< 63 % 2 ^ 64 = 0 := by
      rw [Nat.shiftLeft_eq]
      have he : m * 2 * 2 ^ 63 = m * 2 ^ 64 := by ring
      rw [he, Nat.mul_mod_left]
    rw [hsh1, hsh63, Nat.zero_xor, u64_as_i64]
    simp only [Nat.mod_eq_of_lt (show m < 2 ^ 64 by omega)]
    rw [if_pos (by omega)]
    omega
  · have hmod : x % (2 ^ 64 : Int) = x + 2 ^ 64 := by omega
    have hu : i64_as_u64 x = (x + 2 ^ 64).toNat := by rw [i64_as_u64, hmod]
    set u : Nat := (x + 2 ^ 64).toNat with hudef
    have hu63 : 2 ^ 63 ≤ u := by omega
    have hu64 : u < 2 ^ 64 := by omega
    set w : Nat := u - 2 ^ 63 with hwdef
    have hw : w < 2 ^ 63 := by omega
    have henc : encode_zigzag_s64 x = (2 ^ 63 - 1 - w) * 2 + 1 := by
      rw [encode_zigzag_s64, hu]
      have hdiv : u >>> 63 = 1 := by rw [Nat.shiftRight_eq_div_pow]; omega
      rw [if_neg (by rw [hdiv]; omega), hdiv]
      have hxu : u ^^^ 0x7FFFFFFFFFFFFFFF = 2 ^ 64 - 1 - w := by
        have husplit : u = 2 ^ 63 + w := by omega
        have hmask : (0x7FFFFFFFFFFFFFFF : Nat) = 2 ^ 63 - 1 := by norm_num
        rw [husplit, hmask, high_plus_xor_mask hw]
      rw [hxu, Nat.shiftLeft_eq, pow_one]
      have hsm : (2 ^ 64 - 1 - w) * 2 % 2 ^ 64 = 2 ^ 64 - 2 - 2 * w := by omega
      rw [hsm]
      have hveq : 2 ^ 64 - 2 - 2 * w = (2 ^ 63 - 1 - w) * 2 ^ 1 := by
        rw [pow_one]; omega
      rw [hveq, xor_disjoint (by omega) (2 ^ 63 - 1 - w), pow_one]
    set m : Nat := 2 ^ 63 - 1 - w with hmdef
    rw [henc, decode_zigzag_s64]
    have hand : (m * 2 + 1) &&& 1 = 1 := by rw [Nat.and_one_is_mod]; omega
    rw [if_neg (by rw [hand]; omega)]
    have hsh1 : (m * 2 + 1) >>> 1 = m := by rw [Nat.shiftRight_eq_div_pow]; omega
    have hm63 : m < 2 ^ 63 := by omega
    have hsh63 : (m * 2 + 1) <<< 63 % 2 ^ 64 = 2 ^ 63 := by
      rw [Nat.shiftLeft_eq]
      have he : (m * 2 + 1) * 2 ^ 63 = m * 2 ^ 64 + 2 ^ 63 := by ring
      rw [he]
      omega
    rw [hsh1, hsh63, u64_as_i64]
    have hcore : ((2 ^ 63 ^^^ m) ^^^ 0x7FFFFFFFFFFFFFFF) % 2 ^ 64
        = 2 ^ 64 - 1 - m := by
      have hmask : (0x7FFFFFFFFFFFFFFF : Nat) = 2 ^ 63 - 1 := by norm_num
      rw [hmask, Nat.xor_assoc, high_xor_low_mask hm63, Nat.mod_eq_of_lt (by omega)]
    simp only [hcore]
    rw [if_neg (by omega)]
    omega

/-- C8.  ZigZag round-trip: for every `i32` value `x` (including `i32::MIN`),
`decode_zigzag_s32 (encode_zigzag_s32 x) = x`, and for every `i64` value `x`
(including `i64::MIN`), `decode_zigzag_s64 (encode_zigzag_s64 x) = x`. -/
theorem zigzag_roundtrip (x : Int) :
    (-2 ^ 31 ≤ x → x < 2 ^ 31 → decode_zigzag_s32 (encode_zigzag_s32 x) = x)
    ∧ (-2 ^ 63 ≤ x → x < 2 ^ 63 → decode_zigzag_s64 (encode_zigzag_s64 x) = x) :=
  ⟨fun h1 h2 => zigzag_roundtrip_s32 x h1 h2,
   fun h1 h2 => zigzag_roundtrip_s64 x h1 h2⟩

/-- Witness for C8 at the two's-complement edge cases `i32::MIN` and
`i64::MIN`. -/
theorem zigzag_roundtrip_witness :
    decode_zigzag_s32 (encode_zigzag_s32 (-2147483648)) = -2147483648
    ∧ decode_zigzag_s64 (encode_zigzag_s64 (-9223372036854775808))
        = -9223372036854775808 :=
  ⟨(zigzag_roundtrip (-2147483648)).1 (by norm_num) (by norm_num),
   (zigzag_roundtrip (-9223372036854775808)).2 (by norm_num) (by norm_num)⟩

/-! ## Zero-consumption success and non-termination (C3) -/

/-- C3.  The claim that every accepted field decode consumes at least one byte
(and hence that the `SimpleParser::deserialize` loop terminates) is violated by
the code: on the single-byte buffer `[0x80]` (a continuation byte with no
terminator) the first candidate, `Int32Field`, succeeds consuming 0 bytes
(`deserialize_varint` reports `readed = 0` twice), so the cursor never
advances and the `while index != into.len()` loop never terminates — modelled
here as `simpleGo` running out of fuel for every fuel value. -/
theorem zero_consumption_nontermination :
    try_deserialize_field [0x80] = .ok (.mk "" .Optional .Int32 0 (.dInt 0)) 0
    ∧ ∀ (fuel : Nat) (fields : List FieldRec),
        simpleGo fuel [0x80] 0 fields = .outOfFuel := by
  refine ⟨rfl, ?_⟩
  intro fuel
  induction fuel with
  | zero => intro fields; rfl
  | succ n ih => intro fields; exact ih (fields ++ [.mk "" .Optional .Int32 0 (.dInt 0)])

/-! ## `FloatField` slice panic (C4) -/

/-- C4.  `FloatField::deserialize` slices `&into[readed..4]` (absolute end
index 4 instead of `readed + 4`), so on the well-formed 4-byte float field
`[0x0D, 0, 0, 0, 0]` (tag `0x0D` = field 1, wire type 5) the slice has only
3 elements and the `ptr[3]` access panics — contradicting the claim that the
fixed-width decoders bounds-check and never panic.  On genuinely truncated
input both `FloatField` and `Fixed32Field` do return the `Truncated`-kind
(`IncorrectData`) error before slicing. -/
theorem float_slice_panic :
    FloatField.deserialize [0x0D, 0x00, 0x00, 0x00, 0x00] = .panic
    ∧ FloatField.deserialize [0x0D, 0x00, 0x00, 0x00]
        = .err ⟨"expected bytes, found fewer", .IncorrectData⟩
    ∧ Fixed32Field.deserialize [0x0D, 0x00, 0x00, 0x00]
        = .err ⟨"expected bytes, found fewer", .IncorrectData⟩
    ∧ Fixed64Field.deserialize [0x09, 0, 0, 0, 0, 0, 0, 0]
        = .err ⟨"expected bytes, found fewer", .IncorrectData⟩ :=
  ⟨rfl, rfl, rfl, rfl⟩

/-! ## The `>> 0x32` range check (C5) -/

/-- C5.  The Int32/UInt32 acceptance predicate shifts by `0x32` = 50, not 32:
the varint payload `2 ^ 32` (bytes `80 80 80 80 10` after the tag `0x08`) has
a bit above position 31 but is accepted by both `Int32Field::deserialize`
(truncating the stored value to 0) and `UInt32Field::deserialize`, while a
payload of `2 ^ 50` is rejected — contradicting the claim that any value with
a bit at position 32 or above is rejected. -/
theorem int32_range_check_is_50_bits :
    Int32Field.deserialize [0x08, 0x80, 0x80, 0x80, 0x80, 0x10]
      = .ok (.mk "" .Optional .Int32 1 (.dInt 0), 6)
    ∧ UInt32Field.deserialize [0x08, 0x80, 0x80, 0x80, 0x80, 0x10]
      = .ok (.mk "" .Optional .UInt32 1 (.dNat 0), 6)
    ∧ deserialize_varint_raw [0x80, 0x80, 0x80, 0x80, 0x80, 0x80, 0x80, 0x02]
      = (2 ^ 50, 8)
    ∧ Int32Field.deserialize
        [0x08, 0x80, 0x80, 0x80, 0x80, 0x80, 0x80, 0x80, 0x02]
      = .err ⟨"expected Int32 found U/Int64", .IncorrectData⟩ :=
  ⟨rfl, rfl, by decide, rfl⟩

/-! ## The `SFixed32 → Fixed64Field` factory mapping (C9) -/

/-- C9.  The decoder factory maps `FieldType::SFixed32` to `Fixed64Field`
(line 214 of `src/proto/field.rs`), so attempting the `SFixed32` candidate
behaves exactly like a fresh `Fixed64Field` decode: it errors on every
wire-type-5 key, and every success happens on a wire-type-1 key and consumes
exactly the key length plus 8 payload bytes. -/
theorem sfixed32_candidate_is_fixed64 (into : List Nat) :
    deserializeByType .SFixed32 into = Fixed64Field.deserialize into
    ∧ ((parse_key (deserialize_varint_raw into).1).2 = 5 →
        ∃ e, deserializeByType .SFixed32 into = .err e)
    ∧ (∀ f c, deserializeByType .SFixed32 into = .ok (f, c) →
        (parse_key (deserialize_varint_raw into).1).2 = 1
        ∧ c = (deserialize_varint_raw into).2 + 8) := by
  rcases hkr : deserialize_varint_raw into with ⟨key, readed⟩
  rcases hpk : parse_key key with ⟨index, type_int⟩
  refine ⟨rfl, ?_, ?_⟩
  · intro h5
    replace h5 : type_int = 5 := h5
    show ∃ e, Fixed64Field.deserialize into = .err e
    simp only [Fixed64Field.deserialize, hkr, hpk]
    rw [if_pos (by omega)]
    exact ⟨_, rfl⟩
  · intro f c h
    replace h : Fixed64Field.deserialize into = .ok (f, c) := h
    show type_int = 1 ∧ c = readed + 8
    simp only [Fixed64Field.deserialize, hkr, hpk] at h
    split at h
    · exact FRes.noConfusion h
    next hty =>
      split at h
      · exact FRes.noConfusion h
      next hbound =>
        split at h
        · cases h
          exact ⟨by omega, rfl⟩
        · exact FRes.noConfusion h

/-- Witness for C9: a wire-type-5 4-byte fixed32 field is rejected, and a
wire-type-1 8-byte field is accepted consuming `1 + 8` bytes. -/
theorem sfixed32_candidate_is_fixed64_witness :
    (∃ e, deserializeByType .SFixed32 [0x0D, 0, 0, 0, 0] = .err e)
    ∧ ((parse_key (deserialize_varint_raw [0x09, 0, 0, 0, 0, 0, 0, 0, 0]).1).2 = 1
        ∧ (9 : Nat) = (deserialize_varint_raw [0x09, 0, 0, 0, 0, 0, 0, 0, 0]).2 + 8) :=
  ⟨(sfixed32_candidate_is_fixed64 [0x0D, 0, 0, 0, 0]).2.1 (by decide),
   (sfixed32_candidate_is_fixed64 [0x09, 0, 0, 0, 0, 0, 0, 0, 0]).2.2
     (.mk "" .Optional .Fixed64 1 (.dInt 0)) 9 rfl⟩

/-! ## Recorded field types after deserialisation (C10) -/

/-- C10.  After every successful `deserialize`, `Int64Field`, `UInt64Field`,
`SInt64Field` and `StartGroupField` record `FieldType::Int32` in their `type_`
member instead of their own type. -/
theorem recorded_type_is_int32 :
    (∀ (into : List Nat) (f : FieldRec) (c : Nat),
      Int64Field.deserialize into = .ok (f, c) → f.type_ = .Int32)
    ∧ (∀ (into : List Nat) (f : FieldRec) (c : Nat),
      UInt64Field.deserialize into = .ok (f, c) → f.type_ = .Int32)
    ∧ (∀ (into : List Nat) (f : FieldRec) (c : Nat),
      SInt64Field.deserialize into = .ok (f, c) → f.type_ = .Int32)
    ∧ (∀ (into : List Nat) (f : FieldRec) (c : Nat),
      StartGroupField.deserialize into = .ok (f, c) → f.type_ = .Int32) := by
  refine ⟨?_, ?_, ?_, ?_⟩
  · intro into f c h
    rcases hkr : deserialize_varint_raw into with ⟨key, readed⟩
    rcases hpk : parse_key key with ⟨index, type_int⟩
    simp only [Int64Field.deserialize, hkr, hpk] at h
    split at h
    · exact FRes.noConfusion h
    · split at h
      · exact FRes.noConfusion h
      · rcases hkv : deserialize_varint_raw (into.drop readed) with ⟨value, readed_x⟩
        simp only [hkv] at h
        cases h
        rfl
  · intro into f c h
    rcases hkr : deserialize_varint_raw into with ⟨key, readed⟩
    rcases hpk : parse_key key with ⟨index, type_int⟩
    simp only [UInt64Field.deserialize, hkr, hpk] at h
    split at h
    · exact FRes.noConfusion h
    · split at h
      · exact FRes.noConfusion h
      · rcases hkv : deserialize_varint_raw (into.drop readed) with ⟨value, readed_x⟩
        simp only [hkv] at h
        cases h
        rfl
  · intro into f c h
    rcases hkr : deserialize_varint_raw into with ⟨key, readed⟩
    rcases hpk : parse_key key with ⟨index, type_int⟩
    simp only [SInt64Field.deserialize, hkr, hpk] at h
    split at h
    · exact FRes.noConfusion h
    · split at h
      · exact FRes.noConfusion h
      · rcases hkv : deserialize_varint_raw (into.drop readed) with ⟨value, readed_x⟩
        simp only [hkv] at h
        cases h
        rfl
  · intro into f c h
    rcases hkr : deserialize_varint_raw into with ⟨key, readed⟩
    rcases hpk : parse_key key with ⟨index, type_int⟩
    simp only [StartGroupField.deserialize, hkr, hpk] at h
    split at h
    · exact FRes.noConfusion h
    · cases h
      rfl

/-- Witness for C10: concrete decodes of an `int64`/`uint64`/`sint64` varint
field `[0x08, 0x01]` and a start-group tag `[0x0B]`, each recording
`FieldType::Int32`. -/
theorem recorded_type_is_int32_witness :
    (FieldRec.mk "" .Optional .Int32 1 (.dInt 1)).type_ = .Int32
    ∧ (FieldRec.mk "" .Optional .Int32 1 (.dNat 1)).type_ = .Int32
    ∧ (FieldRec.mk "" .Optional .Int32 1 (.dInt (-1))).type_ = .Int32
    ∧ (FieldRec.mk "" .Optional .Int32 1 (.dInt 0)).type_ = .Int32 :=
  ⟨recorded_type_is_int32.1 [0x08, 0x01] (.mk "" .Optional .Int32 1 (.dInt 1)) 2 rfl,
   recorded_type_is_int32.2.1 [0x08, 0x01] (.mk "" .Optional .Int32 1 (.dNat 1)) 2 rfl,
   recorded_type_is_int32.2.2.1 [0x08, 0x01]
     (.mk "" .Optional .Int32 1 (.dInt (-1))) 2 rfl,
   recorded_type_is_int32.2.2.2 [0x0B] (.mk "" .Optional .Int32 1 (.dInt 0)) 1 rfl⟩

/-! ## Support lemmas for the parser-level claims -/

lemma serialize_varint_length_pos (v : Nat) : 0 < (serialize_varint v).length := by
  rcases eq_or_ne v 0 with rfl | hv
  · simp [serialize_varint]
  · rw [serialize_varint, if_neg hv]
    rcases Nat.lt_or_ge v 128 with h | h
    · simp [varint_groups_small hv h]
    · simp [varint_groups_large h]

lemma varint_groups_length_le : ∀ (k x : Nat), x < 2 ^ (7 * k) →
    (varint_groups x).length ≤ k := by
  intro k
  induction k with
  | zero =>
    intro x hx
    have : x = 0 := by simpa using hx
    subst this
    simp [varint_groups]
  | succ k ih =>
    intro x hx
    rcases eq_or_ne x 0 with rfl | hv
    · simp [varint_groups]
    · rcases Nat.lt_or_ge x 128 with h | h
      · simp [varint_groups_small hv h]
      · rw [varint_groups_large h]
        simp only [List.length_cons]
        have h7 : x >>> 7 < 2 ^ (7 * k) := by
          rw [shiftRight_7]
          have hp : 2 ^ (7 * (k + 1)) = 2 ^ (7 * k) * 128 := by
            rw [Nat.mul_add, Nat.pow_add]
          rw [hp] at hx
          omega
        have := ih (x >>> 7) h7
        omega

lemma serialize_varint_length_le (v : Nat) (hv : v < 2 ^ 64) :
    (serialize_varint v).length ≤ 10 := by
  rcases eq_or_ne v 0 with rfl | hne
  · simp [serialize_varint]
  · rw [serialize_varint, if_neg hne]
    exact varint_groups_length_le 10 v (by norm_num at hv ⊢; omega)

/-- Wire-type mismatch rejections of every candidate tried before `String` in
the priority order, for a key whose wire type is not the expected one. -/
lemma int32_wire_ne {into : List Nat} {key readed index type_int : Nat}
    (hkr : deserialize_varint_raw into = (key, readed))
    (hpk : parse_key key = (index, type_int)) (h : type_int ≠ 0) :
    ∃ e, Int32Field.deserialize into = .err e := by
  simp only [Int32Field.deserialize, hkr, hpk]
  rw [if_pos h]
  exact ⟨_, rfl⟩

lemma int64_wire_ne {into : List Nat} {key readed index type_int : Nat}
    (hkr : deserialize_varint_raw into = (key, readed))
    (hpk : parse_key key = (index, type_int)) (h : type_int ≠ 0) :
    ∃ e, Int64Field.deserialize into = .err e := by
  simp only [Int64Field.deserialize, hkr, hpk]
  rw [if_pos h]
  exact ⟨_, rfl⟩

lemma uint32_wire_ne {into : List Nat} {key readed index type_int : Nat}
    (hkr : deserialize_varint_raw into = (key, readed))
    (hpk : parse_key key = (index, type_int)) (h : type_int ≠ 0) :
    ∃ e, UInt32Field.deserialize into = .err e := by
  simp only [UInt32Field.deserialize, hkr, hpk]
  rw [if_pos h]
  exact ⟨_, rfl⟩

lemma uint64_wire_ne {into : List Nat} {key readed index type_int : Nat}
    (hkr : deserialize_varint_raw into = (key, readed))
    (hpk : parse_key key = (index, type_int)) (h : type_int ≠ 0) :
    ∃ e, UInt64Field.deserialize into = .err e := by
  simp only [UInt64Field.deserialize, hkr, hpk]
  rw [if_pos h]
  exact ⟨_, rfl⟩

lemma sint32_wire_ne {into : List Nat} {key readed index type_int : Nat}
    (hkr : deserialize_varint_raw into = (key, readed))
    (hpk : parse_key key = (index, type_int)) (h : type_int ≠ 0) :
    ∃ e, SInt32Field.deserialize into = .err e := by
  simp only [SInt32Field.deserialize, hkr, hpk]
  rw [if_pos h]
  exact ⟨_, rfl⟩

lemma sint64_wire_ne {into : List Nat} {key readed index type_int : Nat}
    (hkr : deserialize_varint_raw into = (key, readed))
    (hpk : parse_key key = (index, type_int)) (h : type_int ≠ 0) :
    ∃ e, SInt64Field.deserialize into = .err e := by
  simp only [SInt64Field.deserialize, hkr, hpk]
  rw [if_pos h]
  exact ⟨_, rfl⟩

lemma bool_wire_ne {into : List Nat} {key readed index type_int : Nat}
    (hkr : deserialize_varint_raw into = (key, readed))
    (hpk : parse_key key = (index, type_int)) (h : type_int ≠ 0) :
    ∃ e, BoolField.deserialize into = .err e := by
  simp only [BoolField.deserialize, hkr, hpk]
  rw [if_pos h]
  exact ⟨_, rfl⟩

lemma fixed64_wire_ne {into : List Nat} {key readed index type_int : Nat}
    (hkr : deserialize_varint_raw into = (key, readed))
    (hpk : parse_key key = (index, type_int)) (h : type_int ≠ 1) :
    ∃ e, Fixed64Field.deserialize into = .err e := by
  simp only [Fixed64Field.deserialize, hkr, hpk]
  rw [if_pos h]
  exact ⟨_, rfl⟩

lemma sfixed64_wire_ne {into : List Nat} {key readed index type_int : Nat}
    (hkr : deserialize_varint_raw into = (key, readed))
    (hpk : parse_key key = (index, type_int)) (h : type_int ≠ 1) :
    ∃ e, SFixed64Field.deserialize into = .err e := by
  simp only [SFixed64Field.deserialize, hkr, hpk]
  rw [if_pos h]
  exact ⟨_, rfl⟩

lemma double_wire_ne {into : List Nat} {key readed index type_int : Nat}
    (hkr : deserialize_varint_raw into = (key, readed))
    (hpk : parse_key key = (index, type_int)) (h : type_int ≠ 1) :
    ∃ e, DoubleField.deserialize into = .err e := by
  simp only [DoubleField.deserialize, hkr, hpk]
  rw [if_pos h]
  exact ⟨_, rfl⟩

lemma fixed32_wire_ne {into : List Nat} {key readed index type_int : Nat}
    (hkr : deserialize_varint_raw into = (key, readed))
    (hpk : parse_key key = (index, type_int)) (h : type_int ≠ 5) :
    ∃ e, Fixed32Field.deserialize into = .err e := by
  simp only [Fixed32Field.deserialize, hkr, hpk]
  rw [if_pos h]
  exact ⟨_, rfl⟩

lemma float_wire_ne {into : List Nat} {key readed index type_int : Nat}
    (hkr : deserialize_varint_raw into = (key, readed))
    (hpk : parse_key key = (index, type_int)) (h : type_int ≠ 5) :
    ∃ e, FloatField.deserialize into = .err e := by
  simp only [FloatField.deserialize, hkr, hpk]
  rw [if_pos h]
  exact ⟨_, rfl⟩

/-- For a wire-type-2 key, every candidate before `String` in the priority
order is rejected with a wire-type mismatch; if `String` also errors (e.g.
non-ASCII payload), the whole pre-`Embedded` search finds no match. -/
lemma tryPre_nomatch {into : List Nat} {key readed index : Nat}
    (hkr : deserialize_varint_raw into = (key, readed))
    (hpk : parse_key key = (index, 2))
    (hstr : ∃ e, StringField.deserialize into = .err e) :
    tryFieldsOrder fieldsOrderPre into = .nomatch := by
  obtain ⟨e1, h1⟩ := int32_wire_ne hkr hpk (by omega)
  obtain ⟨e2, h2⟩ := int64_wire_ne hkr hpk (by omega)
  obtain ⟨e3, h3⟩ := uint32_wire_ne hkr hpk (by omega)
  obtain ⟨e4, h4⟩ := uint64_wire_ne hkr hpk (by omega)
  obtain ⟨e5, h5⟩ := sint32_wire_ne hkr hpk (by omega)
  obtain ⟨e6, h6⟩ := sint64_wire_ne hkr hpk (by omega)
  obtain ⟨e7, h7⟩ := bool_wire_ne hkr hpk (by omega)
  obtain ⟨e8, h8⟩ := fixed64_wire_ne hkr hpk (by omega)
  obtain ⟨e9, h9⟩ := sfixed64_wire_ne hkr hpk (by omega)
  obtain ⟨e10, h10⟩ := double_wire_ne hkr hpk (by omega)
  obtain ⟨e11, h11⟩ := fixed32_wire_ne hkr hpk (by omega)
  obtain ⟨e12, h12⟩ := float_wire_ne hkr hpk (by omega)
  obtain ⟨e13, h13⟩ := hstr
  simp only [fieldsOrderPre, tryFieldsOrder, deserializeByType,
    h1, h2, h3, h4, h5, h6, h7, h8, h9, h10, h11, h12, h13]

/-! ## Embedded fallthrough (C6) -/

/-- C6 counterexample.  The buffer `[0x12, 0x01, 0x80]` is a length-delimited
field (field 2, wire type 2, declared length 1) whose payload `[0x80]` is not
decodable as a field sequence and is not printable ASCII.  The claim says it
must decode as `Bytes` with no top-level error; instead the recursive decode
of the payload accepts `Int32` candidates consuming 0 bytes forever, so
`FullParser::deserialize` never returns (the model runs out of fuel — at
every fuel, cf. the zero-consumption defect of C3). -/
theorem embedded_fallthrough_counterexample :
    FullParser.deserialize [0x12, 0x01, 0x80] = .outOfFuel := rfl

/-- C6 (amended).  In the recursive (`FullParser`) decode, a length-delimited
field whose payload fails the recursive field-sequence decode *with an error*
(and whose payload bytes are not all printable ASCII) is decoded as `Bytes`,
never as `Embedded`, and the recursive failure does not surface as a
top-level error: the whole single-field buffer decodes successfully into one
`Bytes` field carrying the payload. -/
theorem embedded_fallthrough_to_bytes (n : Nat) (P : List Nat)
    (hn : n < 2 ^ 61) (hP : P.length < 2 ^ 60)
    (hbad : ∃ b ∈ P, b < 0x20 ∨ 0x7F < b)
    (hrec : ∃ e, fullGo
        ((serialize_varint (generate_key n 2)).length
          + (serialize_varint P.length).length + P.length) P 0 [] = .err e) :
    FullParser.deserialize
        (serialize_varint (generate_key n 2) ++ serialize_varint P.length ++ P)
      = .ok ⟨"Generated", [.mk "" .Optional .Bytes n (.dBytes P)]⟩ := by
  have hk : generate_key n 2 = n * 8 + 2 := by
    rw [generate_key,
      show (0x1FFFFFFFFFFFFFFF : Nat) = 2 ^ 61 - 1 from by norm_num,
      Nat.and_pow_two_sub_one_eq_mod, Nat.mod_eq_of_lt hn, Nat.shiftLeft_eq,
      or_disjoint (by norm_num : (2 : Nat) < 2 ^ 3) n]
    norm_num
  set K := serialize_varint (generate_key n 2) with hK
  set S := serialize_varint P.length with hS
  have hKlen : K.length ≤ 10 := by
    rw [hK]; exact serialize_varint_length_le _ (by rw [hk]; omega)
  have hKpos : 0 < K.length := by rw [hK]; exact serialize_varint_length_pos _
  have hSlen : S.length ≤ 10 := by
    rw [hS]; exact serialize_varint_length_le _ (by omega)
  have hSpos : 0 < S.length := by rw [hS]; exact serialize_varint_length_pos _
  have hassoc : K ++ S ++ P = K ++ (S ++ P) := List.append_assoc K S P
  have hvar : deserialize_varint_raw (K ++ S ++ P) = (n * 8 + 2, K.length) := by
    rw [hassoc, hK, hk]
    exact deserialize_serialize_append _ (by omega) _
  have hpk : parse_key (n * 8 + 2) = (n, 2) := by
    rw [parse_key]
    have h1 : (n * 8 + 2) >>> 3 = n := by rw [Nat.shiftRight_eq_div_pow]; omega
    have h2 : (n * 8 + 2) &&& 7 = 2 := by
      rw [show (7 : Nat) = 2 ^ 3 - 1 from by norm_num,
        Nat.and_pow_two_sub_one_eq_mod]
      omega
    rw [h1, h2]
  have hlen : (K ++ S ++ P).length = K.length + S.length + P.length := by
    simp only [List.length_append]
  have hdrop1 : (K ++ S ++ P).drop K.length = S ++ P := by
    rw [hassoc]; exact List.drop_left K (S ++ P)
  have hsize : deserialize_varint_raw (S ++ P) = (P.length, S.length) := by
    rw [hS]; exact deserialize_serialize_append _ (by omega) _
  have hmodsum : (K.length + S.length + P.length) % 2 ^ 64
      = K.length + S.length + P.length := Nat.mod_eq_of_lt (by omega)
  have hdrop2 : (K ++ S ++ P).drop (K.length + S.length) = P :=
    List.drop_left' (by simp [List.length_append])
  have htk : K.length + S.length + P.length - (K.length + S.length) = P.length := by
    omega
  obtain ⟨b, hbm, hbv⟩ := hbad
  have hc1 : ¬ ((2 : Nat) ≠ 2) := by norm_num
  have hc2 : ¬ (K.length ≥ (K ++ S ++ P).length) := by rw [hlen]; omega
  have hc3 : ¬ (K.length + S.length + P.length > (K ++ S ++ P).length) := by
    rw [hlen]
    omega
  have hc4 : ¬ (K.length + S.length + P.length < K.length + S.length) := by
    omega
  have hstr : ∃ e, StringField.deserialize (K ++ S ++ P) = .err e := by
    simp only [StringField.deserialize, hvar, hpk]
    rw [if_neg hc1, if_neg hc2]
    simp only [hdrop1, hsize, hmodsum]
    rw [if_neg hc3, if_neg hc4, htk, hdrop2, List.take_length,
      if_pos (List.any_eq_true.mpr ⟨b, hbm, decide_eq_true hbv⟩)]
    exact ⟨_, rfl⟩
  have hemb : EmbeddedField.deserialize (K ++ S ++ P)
      = .ok (.mk "" .Optional .Embedded n (.dEmbedded [] (some P)),
          K.length + S.length + P.length) := by
    simp only [EmbeddedField.deserialize, hvar, hpk]
    rw [if_neg hc1, if_neg hc2]
    simp only [hdrop1, hsize, hmodsum]
    rw [if_neg hc3, if_neg hc4, htk, hdrop2, List.take_length]
  have hbytes : BytesField.deserialize (K ++ S ++ P)
      = .ok (.mk "" .Optional .Bytes n (.dBytes P),
          K.length + S.length + P.length) := by
    simp only [BytesField.deserialize, hvar, hpk]
    rw [if_neg hc1]
    simp only [hdrop1, hsize, hmodsum]
    rw [if_neg hc3, if_neg hc4, htk, hdrop2, List.take_length]
  obtain ⟨f1, hh1⟩ := int32_wire_ne hvar hpk (by omega)
  obtain ⟨f2, hh2⟩ := int64_wire_ne hvar hpk (by omega)
  obtain ⟨f3, hh3⟩ := uint32_wire_ne hvar hpk (by omega)
  obtain ⟨f4, hh4⟩ := uint64_wire_ne hvar hpk (by omega)
  obtain ⟨f5, hh5⟩ := sint32_wire_ne hvar hpk (by omega)
  obtain ⟨f6, hh6⟩ := sint64_wire_ne hvar hpk (by omega)
  obtain ⟨f7, hh7⟩ := bool_wire_ne hvar hpk (by omega)
  obtain ⟨f8, hh8⟩ := fixed64_wire_ne hvar hpk (by omega)
  obtain ⟨f9, hh9⟩ := sfixed64_wire_ne hvar hpk (by omega)
  obtain ⟨f10, hh10⟩ := double_wire_ne hvar hpk (by omega)
  obtain ⟨f11, hh11⟩ := fixed32_wire_ne hvar hpk (by omega)
  obtain ⟨f12, hh12⟩ := float_wire_ne hvar hpk (by omega)
  obtain ⟨f13, hh13⟩ := hstr
  obtain ⟨er, hr⟩ := hrec
  obtain ⟨m, hm⟩ : ∃ m, K.length + S.length + P.length = m + 1 :=
    ⟨K.length + S.length + P.length - 1, by omega⟩
  have hpre : tryFieldsOrder fieldsOrderPre (K ++ S ++ P) = .nomatch := by
    simp only [fieldsOrderPre, tryFieldsOrder, deserializeByType,
      hh1, hh2, hh3, hh4, hh5, hh6, hh7, hh8, hh9, hh10, hh11, hh12, hh13]
  have hpost : tryFieldsOrder fieldsOrderPost (K ++ S ++ P)
      = .ok (FieldRec.mk "" .Optional .Bytes n (.dBytes P))
          (K.length + S.length + P.length) := by
    simp only [fieldsOrderPost, tryFieldsOrder, deserializeByType, hbytes]
  have hfinal : fullGo (m + 1) (K ++ S ++ P) (m + 1)
      [FieldRec.mk "" .Optional .Bytes n (.dBytes P)]
      = .ok ([FieldRec.mk "" .Optional .Bytes n (.dBytes P)], m + 1) := by
    rw [fullGo, if_pos (by rw [hlen, hm])]
  simp only [FullParser.deserialize, FullParser.deserializeFields]
  rw [hlen, fullGo]
  rw [if_neg (by rw [hlen]; omega)]
  simp only [List.drop_zero, hpre, hemb, FieldRec.rawPayload, hr, hpost,
    List.nil_append, Nat.zero_add]
  rw [hm, hfinal]

/-- Witness for C6 (amended): field number 1, payload `[0x07]` (non-printable,
and its recursive decode errors because no candidate accepts wire type 7);
the buffer `[0x0A, 0x01, 0x07]` decodes to a single `Bytes` field. -/
theorem embedded_fallthrough_to_bytes_witness :
    FullParser.deserialize [0x0A, 0x01, 0x07]
      = .ok ⟨"Generated", [.mk "" .Optional .Bytes 1 (.dBytes [0x07])]⟩ := by
  have hK : serialize_varint (generate_key 1 2) = [0x0A] := by
    rw [show generate_key 1 2 = 10 from by decide, serialize_varint,
      if_neg (by norm_num), varint_groups_small (by norm_num) (by norm_num)]
  have hS : serialize_varint ([0x07] : List Nat).length = [0x01] := by
    rw [show ([0x07] : List Nat).length = 1 from rfl, serialize_varint,
      if_neg (by norm_num), varint_groups_small (by norm_num) (by norm_num)]
  have h := embedded_fallthrough_to_bytes 1 [0x07] (by norm_num) (by norm_num)
    ⟨0x07, by norm_num, by norm_num⟩ ?_
  · rw [hK, hS] at h
    exact h
  · rw [hK, hS]
    exact ⟨_, rfl⟩

/-! ## Scanning decoder coverage (C7) -/

/-- C7 counterexample.  `M1 = [0x08, 0x01]` and `M2 = [0x10, 0x01]` are two
valid encoded messages (each fully decodes into one non-empty field list),
but the scan of `M1 ++ M2` from offset 0 does not stop at `len(M1)`: it keeps
decoding into `M2`, so the result map holds exactly the entries keyed
`(0, 4)` and `(2, 4)` — there is no entry keyed `(0, len M1) = (0, 2)`. -/
theorem scanning_m1_entry_missing :
    PartialParser.deserializeFields [0x08, 0x01]
      = .ok ([.mk "" .Optional .Int32 1 (.dInt 1)], 2)
    ∧ PartialParser.deserializeFields [0x10, 0x01]
      = .ok ([.mk "" .Optional .Int32 2 (.dInt 1)], 2)
    ∧ PartialParser.deserializeMap [0x08, 0x01, 0x10, 0x01]
      = .ok [((0, 4), ⟨"Generated", [.mk "" .Optional .Int32 1 (.dInt 1),
                                     .mk "" .Optional .Int32 2 (.dInt 1)]⟩),
             ((2, 4), ⟨"Generated", [.mk "" .Optional .Int32 2 (.dInt 1)]⟩)]
    ∧ findEntry (0, 2)
        [((0, 4), ⟨"Generated", [.mk "" .Optional .Int32 1 (.dInt 1),
                                 .mk "" .Optional .Int32 2 (.dInt 1)]⟩),
         ((2, 4), ⟨"Generated", [.mk "" .Optional .Int32 2 (.dInt 1)]⟩)] = none :=
  ⟨rfl, rfl, rfl, rfl⟩

lemma dmapGo_mem (into : List Nat) (s₀ : Nat) (fs : List FieldRec) (c : Nat)
    (hscan : PartialParser.deserializeFields (into.drop s₀) = .ok (fs, c))
    (hfs : fs ≠ []) :
    ∀ (remaining s : Nat) (es : List ((Nat × Nat) × Message)),
      dmapGo into remaining s = .ok es → s ≤ s₀ → s₀ < s + remaining →
      ((s₀, s₀ + c), (⟨"Generated", fs⟩ : Message)) ∈ es := by
  intro remaining
  induction remaining with
  | zero => intro s es h hle hlt; omega
  | succ k ih =>
    intro s es h hle hlt
    rw [dmapGo] at h
    have hns : fs.isEmpty = false := by simp [hfs]
    rcases eq_or_lt_of_le hle with rfl | hlt2
    · simp only [hscan] at h
      cases hrest : dmapGo into k (s + 1) with
      | ok rest =>
        simp only [hrest, hns, Bool.false_eq_true, if_false] at h
        cases h
        exact List.mem_cons_self _ _
      | err e => rw [hrest] at h; exact DRes.noConfusion h
      | outOfFuel => rw [hrest] at h; exact DRes.noConfusion h
      | panic => rw [hrest] at h; exact DRes.noConfusion h
    · cases hsc : PartialParser.deserializeFields (into.drop s) with
      | ok p =>
        obtain ⟨m0, e0⟩ := p
        simp only [hsc] at h
        cases hrest : dmapGo into k (s + 1) with
        | ok rest =>
          simp only [hrest] at h
          have hmem := ih (s + 1) rest hrest (by omega) (by omega)
          by_cases hemp : m0.isEmpty
          · rw [if_pos hemp] at h
            cases h
            exact hmem
          · rw [if_neg hemp] at h
            cases h
            exact List.mem_cons_of_mem _ hmem
        | err e => rw [hrest] at h; exact DRes.noConfusion h
        | outOfFuel => rw [hrest] at h; exact DRes.noConfusion h
        | panic => rw [hrest] at h; exact DRes.noConfusion h
      | err e =>
        simp only [hsc] at h
        exact ih (s + 1) es h (by omega) (by omega)
      | outOfFuel => rw [hsc] at h; exact DRes.noConfusion h
      | panic => rw [hsc] at h; exact DRes.noConfusion h

lemma dmapGo_entries_sound (into : List Nat) :
    ∀ (remaining s : Nat) (es : List ((Nat × Nat) × Message)),
      dmapGo into remaining s = .ok es →
      ∀ (a bnd : Nat) (msg : Message), ((a, bnd), msg) ∈ es →
        msg.fields ≠ []
        ∧ ∃ gs c, PartialParser.deserializeFields (into.drop a) = .ok (gs, c)
            ∧ bnd = a + c ∧ msg = ⟨"Generated", gs⟩ := by
  intro remaining
  induction remaining with
  | zero =>
    intro s es h a bnd msg hmem
    rw [dmapGo] at h
    cases h
    simp at hmem
  | succ k ih =>
    intro s es h a bnd msg hmem
    rw [dmapGo] at h
    cases hsc : PartialParser.deserializeFields (into.drop s) with
    | ok p =>
      obtain ⟨m0, e0⟩ := p
      simp only [hsc] at h
      cases hrest : dmapGo into k (s + 1) with
      | ok rest =>
        simp only [hrest] at h
        by_cases hemp : m0.isEmpty
        · rw [if_pos hemp] at h
          cases h
          exact ih (s + 1) es hrest a bnd msg hmem
        · rw [if_neg hemp] at h
          cases h
          rcases List.mem_cons.mp hmem with heq | htail
          · have h1 : a = s ∧ bnd = s + e0 ∧ msg = ⟨"Generated", m0⟩ := by
              simp only [Prod.mk.injEq] at heq
              exact ⟨heq.1.1, heq.1.2, heq.2⟩
            obtain ⟨rfl, rfl, rfl⟩ := h1
            refine ⟨by simpa using hemp, m0, e0, hsc, rfl, rfl⟩
          · exact ih (s + 1) rest hrest a bnd msg htail
      | err e => rw [hrest] at h; exact DRes.noConfusion h
      | outOfFuel => rw [hrest] at h; exact DRes.noConfusion h
      | panic => rw [hrest] at h; exact DRes.noConfusion h
    | err e =>
      simp only [hsc] at h
      exact ih (s + 1) es h a bnd msg hmem
    | outOfFuel => rw [hsc] at h; exact DRes.noConfusion h
    | panic => rw [hsc] at h; exact DRes.noConfusion h

/-- C7 (amended).  For every buffer `m1 ++ m2` with `m2` a valid encoded
message (its scanning decode consumes it exactly and yields a non-empty field
list), whenever `deserialize_map` returns a result it contains an entry keyed
exactly `(len m1, len m1 + len m2)` holding the decode of `m2`; and every
recorded entry has a non-empty field list and an end offset equal to its start
plus the bytes consumed by the scan at that start.  (The `(0, len m1)` entry
claimed for `m1` is generally absent: the scan from offset 0 continues past
`len m1` into `m2`, as the counterexample shows.) -/
theorem scanning_covers_m2 (m1 m2 : List Nat) (fs : List FieldRec)
    (es : List ((Nat × Nat) × Message))
    (hm2 : PartialParser.deserializeFields m2 = .ok (fs, m2.length))
    (hfs : fs ≠ [])
    (hmap : PartialParser.deserializeMap (m1 ++ m2) = .ok es) :
    ((m1.length, m1.length + m2.length), (⟨"Generated", fs⟩ : Message)) ∈ es
    ∧ ∀ (a bnd : Nat) (msg : Message), ((a, bnd), msg) ∈ es →
        msg.fields ≠ []
        ∧ ∃ gs c, PartialParser.deserializeFields ((m1 ++ m2).drop a) = .ok (gs, c)
            ∧ bnd = a + c ∧ msg = ⟨"Generated", gs⟩ := by
  have hm2ne : m2 ≠ [] := by
    intro hnil
    subst hnil
    rw [PartialParser.deserializeFields] at hm2
    rw [show scanGo ([] : List Nat).length.succ [] 0 [] = .ok ([], 0) from rfl] at hm2
    cases hm2
    exact hfs rfl
  have hdrop : (m1 ++ m2).drop m1.length = m2 := List.drop_left m1 m2
  have hlen : (m1 ++ m2).length = m1.length + m2.length := List.length_append m1 m2
  constructor
  · refine dmapGo_mem (m1 ++ m2) m1.length fs m2.length
      (by rw [hdrop]; exact hm2) hfs (m1 ++ m2).length 0 es hmap (by omega) ?_
    have : 0 < m2.length := List.length_pos.mpr hm2ne
    omega
  · intro a bnd msg hmem
    exact dmapGo_entries_sound (m1 ++ m2) (m1 ++ m2).length 0 es hmap a bnd msg hmem

/-- Witness for C7 (amended) at `m1 = [0x08, 0x01]`, `m2 = [0x10, 0x01]`:
the map of the concatenation contains the entry `((2, 4), decode of m2)`. -/
theorem scanning_covers_m2_witness :
    ((2, 4), (⟨"Generated", [.mk "" .Optional .Int32 2 (.dInt 1)]⟩ : Message))
      ∈ [((0, 4), (⟨"Generated", [.mk "" .Optional .Int32 1 (.dInt 1),
                                  .mk "" .Optional .Int32 2 (.dInt 1)]⟩ : Message)),
         ((2, 4), ⟨"Generated", [.mk "" .Optional .Int32 2 (.dInt 1)]⟩)] :=
  (scanning_covers_m2 [0x08, 0x01] [0x10, 0x01]
    [.mk "" .Optional .Int32 2 (.dInt 1)]
    [((0, 4), ⟨"Generated", [.mk "" .Optional .Int32 1 (.dInt 1),
                             .mk "" .Optional .Int32 2 (.dInt 1)]⟩),
     ((2, 4), ⟨"Generated", [.mk "" .Optional .Int32 2 (.dInt 1)]⟩)]
    rfl (by simp) rfl).1

end Protodec
